import Mathlib

/-!
# Verification of the openaddresses batch-machine conform engine

This file gives a shallow embedding, in Lean 4, of the row-level conform
code of `openaddr/conform.py` and of the Esri field-requirement resolver of
`openaddr/cache.py`, together with theorems settling the frozen claims
about the natural-language specification of that code.

Modelling conventions:

* Python `dict`s of row data become association lists (`Row`) with Python
  dict semantics: lookup finds the first binding, assignment updates a
  binding in place (keeping its position) or appends a new one, deletion
  removes the binding.
* Python cell values are `Cell`: a string, `None`, or an integer (used to
  model non-string values reaching string-typed code paths).
* Fallible Python code (KeyError, AttributeError, TypeError, re errors)
  becomes `Except PyErr`.
* The external OGR geometry library and the general-purpose `re` engine
  are not part of this repository; they are parameters (`Hooks`).  The
  four fixed address regexes of conform.py and the fixed
  format-placeholder scanner are implemented directly, as is SHA-1, JSON
  serialization and IEEE-754 binary64 parse/round/format arithmetic
  (exact, over integers).
* String primitives follow Python semantics on ASCII data (the data
  exercised by the claims); `str.lower`/`str.upper`/whitespace tests are
  implemented for the ASCII range.
-/

set_option maxRecDepth 40000

/-! ## Python string primitives (ASCII range) -/

/-- Python whitespace test for `str.strip()` and regex `\s`, ASCII range
(space, tab, newline, carriage return, vertical tab, form feed). -/
def pyIsSpace (c : Char) : Bool :=
  c = ' ' || c = '\t' || c = '\n' || c = '\r' || c = Char.ofNat 11 || c = Char.ofNat 12

/-- ASCII `str.lower` on one character. -/
def pyLowerChar (c : Char) : Char :=
  if 'A' ≤ c ∧ c ≤ 'Z' then Char.ofNat (c.toNat + 32) else c

/-- ASCII `str.upper` on one character. -/
def pyUpperChar (c : Char) : Char :=
  if 'a' ≤ c ∧ c ≤ 'z' then Char.ofNat (c.toNat - 32) else c

/-- Python `str.lower()` (ASCII range). -/
def pyLower (s : String) : String := String.mk (s.toList.map pyLowerChar)

/-- Python `str.upper()` (ASCII range). -/
def pyUpper (s : String) : String := String.mk (s.toList.map pyUpperChar)

/-- Python `str.strip()` (no argument): drop leading and trailing whitespace. -/
def pyStrip (s : String) : String :=
  String.mk (((s.toList.dropWhile pyIsSpace).reverse.dropWhile pyIsSpace).reverse)

/-- Python `str.lstrip(chars)`: drop leading characters belonging to the set. -/
def pyLstripSet (set : List Char) (s : String) : String :=
  String.mk (s.toList.dropWhile (fun c => set.contains c))

/-- Python `str.rstrip(chars)`: drop trailing characters belonging to the set. -/
def pyRstripSet (set : List Char) (s : String) : String :=
  String.mk ((s.toList.reverse.dropWhile (fun c => set.contains c)).reverse)

/-- Does `pat` occur as a contiguous sublist of `s`?  Models Python `in`
for strings. -/
def listHasInfix (pat s : List Char) : Bool :=
  match s with
  | [] => pat.isEmpty
  | _ :: rest => pat.isPrefixOf s || listHasInfix pat rest

/-- Python `sub in s` for strings. -/
def pyInStr (sub s : String) : Bool := listHasInfix sub.toList s.toList

/-- Python string `<` (code-point lexicographic), used by `sorted`. -/
def strLtPy : List Char → List Char → Bool
  | [], [] => false
  | [], _ :: _ => true
  | _ :: _, [] => false
  | a :: as, b :: bs =>
    if a.toNat < b.toNat then true
    else if b.toNat < a.toNat then false
    else strLtPy as bs

/-- Python `str.startswith`. -/
def pyStartsWith (s pre : String) : Bool := pre.toList.isPrefixOf s.toList

/-- Python `str.endswith`. -/
def pyEndsWith (s suf : String) : Bool := suf.toList.reverse.isPrefixOf s.toList.reverse

/-- Python `str.replace(old, new)` for a single-character `old`/`new`
(the only form conform.py uses: commas to periods). -/
def pyReplaceChar (old new : Char) (s : String) : String :=
  String.mk (s.toList.map (fun c => if c = old then new else c))

/-- ASCII decimal digit test (regex `[0-9]`, `str.isdigit` on ASCII). -/
def isDigitChar (c : Char) : Bool := '0' ≤ c ∧ c ≤ '9'

/-- ASCII letter test (regex `[A-Z]` under `re.IGNORECASE`). -/
def isAsciiLetter (c : Char) : Bool := ('A' ≤ c ∧ c ≤ 'Z') ∨ ('a' ≤ c ∧ c ≤ 'z')

/-- Numeric value of a list of ASCII digits (Python `int(...)`). -/
def digitsToNat (ds : List Char) : Nat :=
  ds.foldl (fun a c => a * 10 + (c.toNat - 48)) 0

/-! ## Cells and rows (Python dict semantics) -/

/-- A Python value stored in a row cell: a string, `None`, or a
non-string (integer) value. -/
inductive Cell where
  | str (s : String)
  | null
  | int (n : Int)
deriving DecidableEq, Repr

/-- Python truthiness of a cell. -/
def Cell.truthy : Cell → Bool
  | .str s => s ≠ ""
  | .null => false
  | .int n => n ≠ 0

/-- A row: an insertion-ordered string-keyed map, as a Python dict. -/
abbrev Row : Type := List (String × Cell)

/-- `row.get(k)` — `none` when the key is absent. -/
def dget (r : Row) (k : String) : Option Cell :=
  match r.find? (fun kv => kv.1 = k) with
  | some kv => some kv.2
  | none => none

/-- `k in row`. -/
def dmem (r : Row) (k : String) : Bool := (dget r k).isSome

/-- `row[k] = v`: update the first binding in place (keeping its
position) or append a new one (Python dict assignment; dicts never hold
duplicate keys). -/
def dset : Row → String → Cell → Row
  | [], k, v => [(k, v)]
  | kv :: rest, k, v => if kv.1 = k then (k, v) :: rest else kv :: dset rest k v

/-- `del row[k]`. -/
def ddel (r : Row) (k : String) : Row := r.filter (fun kv => kv.1 ≠ k)

/-- Python dict equality: same keys, same values, order-insensitive. -/
def rowEquiv (a b : Row) : Bool :=
  a.all (fun kv => dget b kv.1 = some kv.2) && b.all (fun kv => dget a kv.1 = some kv.2)

/-- Python errors that the modelled code can raise. -/
inductive PyErr where
  | keyError (k : String)
  | attrError
  | typeError
  | valueError
  | reError
deriving DecidableEq, Repr

instance {e a : Type} [DecidableEq e] [DecidableEq a] : DecidableEq (Except e a) :=
  fun x y =>
    match x, y with
    | .ok v, .ok w => if h : v = w then .isTrue (by rw [h]) else .isFalse (by simp [h])
    | .error v, .error w => if h : v = w then .isTrue (by rw [h]) else .isFalse (by simp [h])
    | .ok _, .error _ => .isFalse (by simp)
    | .error _, .ok _ => .isFalse (by simp)

/-- `row[k]`: raising lookup. -/
def ditem (r : Row) (k : String) : Except PyErr Cell :=
  match dget r k with
  | some v => .ok v
  | none => .error (.keyError k)

/-- `(cell or '')` followed by `.strip()` — fails with AttributeError on a
truthy non-string (as `int.strip` would). -/
def cellOrEmptyStrip (c : Cell) : Except PyErr String :=
  match c with
  | .str s => .ok (pyStrip s)
  | .null => .ok ""
  | .int n => if n = 0 then .ok "" else .error .attrError

/-- A cell used where Python requires a string (method call). -/
def cellAsStr (c : Cell) : Except PyErr String :=
  match c with
  | .str s => .ok s
  | _ => .error .attrError

/-! ## Conform specification model -/

/-- A value inside a function-node dict (`conform.py` function tags):
a string, a list of strings (`fields`), a list of nested function nodes
(`functions` of a chain), or a boolean (`may_contain_units`). -/
inductive FVal where
  | s (v : String)
  | ls (v : List String)
  | fs (v : List (List (String × FVal)))
  | b (v : Bool)
deriving Repr

/-- A function node: a Python dict such as
`{"function": "format", "fields": [...], "format": "..."}`. -/
abbrev Fxn : Type := List (String × FVal)

/-- `fxn.get(k)`. -/
def fget (f : Fxn) (k : String) : Option FVal :=
  match f.find? (fun kv => kv.1 = k) with
  | some kv => some kv.2
  | none => none

/-- `fxn[k]`. -/
def fitem (f : Fxn) (k : String) : Except PyErr FVal :=
  match fget f k with
  | some v => .ok v
  | none => .error (.keyError k)

/-- A value of the conform dict: a literal source field name, a
list-shortcut, or a function node.  (Numeric tags such as `headers` are
carried as separate `DataSource` fields and do not occur under
schema keys.) -/
inductive CVal where
  | s (v : String)
  | ls (v : List String)
  | f (v : Fxn)
deriving Repr

/-- Python truthiness of a conform value (`if cfield:`). -/
def CVal.truthy : CVal → Bool
  | .s v => v ≠ ""
  | .ls v => ¬ v.isEmpty
  | .f v => ¬ v.isEmpty

/-- The conform block: an insertion-ordered dict. -/
abbrev Conform : Type := List (String × CVal)

/-- `conform.get(k)`. -/
def cget (c : Conform) (k : String) : Option CVal :=
  match c.find? (fun kv => kv.1 = k) with
  | some kv => some kv.2
  | none => none

/-- One acceptance-test fixture (`test['inputs']` and `test['expected']`
are accessed with raising lookups in the source, so they are required
here; `description` is optional). -/
structure AcceptanceTest where
  inputs : Row
  expected : Row
  description : Option String

/-- The `test` block of a source. -/
structure TestBlock where
  enabled : Option Bool
  acceptanceTests : Option (List AcceptanceTest)

/-- The per-source JSON block, restricted to the keys the modelled code
reads. -/
structure DataSource where
  conform : Option Conform
  protocol : Option String
  fingerprint : Option String
  test : Option TestBlock

/-- The layers for which `SourceConfig.__init__` defines a schema
(any other layer leaves `SCHEMA` unset and crashes on first use). -/
inductive Layer where
  | addresses
  | buildings
  | parcels
deriving DecidableEq, Repr

/-- `openaddr/__init__.py` `SourceConfig`, restricted to the fields the
conform engine reads. -/
structure SourceConfig where
  layer : Layer
  dataSource : DataSource

/-- The per-layer `SCHEMA` lists assigned by `SourceConfig.__init__`. -/
def SourceConfig.SCHEMA (sc : SourceConfig) : List String :=
  match sc.layer with
  | .addresses => ["NUMBER", "STREET", "UNIT", "CITY", "DISTRICT", "REGION", "POSTCODE", "ID"]
  | .buildings => []
  | .parcels => ["PID"]

/-- `conform.py` `ADDRESSES_SCHEMA ++ BUILDINGS_SCHEMA ++ PARCELS_SCHEMA
++ ["LAT", "LON"]`. -/
def RESERVED_SCHEMA : List String :=
  ["NUMBER", "STREET", "UNIT", "CITY", "DISTRICT", "REGION", "POSTCODE", "ID",
   "PID", "OWNERS", "LAT", "LON"]

/-- `conform.py` `GEOM_FIELDNAME`. -/
def GEOM_FIELDNAME : String := "OA:GEOM"

/-- An IEEE-754 binary64 value, exactly: zero, or
`(-1)^neg * m * 2^e` with `2^52 ≤ m < 2^53`.  Overflow to infinity and
subnormals are outside the range the engine's coordinates use and are
not modelled. -/
inductive Dbl where
  | zero
  | num (neg : Bool) (m : Nat) (e : Int)
deriving DecidableEq, Repr

/-- The external collaborators of the row-level code: the OGR geometry
library and the general-purpose `re` engine applied to user-supplied
patterns.  Both are deterministic black boxes; `none` models a raised
exception / failed match.  The fixed address patterns of conform.py are
implemented directly and do not go through these hooks. -/
structure Hooks where
  /-- Does `re.compile(pattern)` succeed? -/
  reOk : String → Bool
  /-- `pattern.search(s)` followed by `''.join(match.groups())`:
  `none` when there is no match. -/
  reSearchJoined : String → String → Option String
  /-- `re.sub(pattern, converted_replacement, s)`. -/
  reSub : String → String → String → String
  /-- `ogr.CreateGeometryFromWkt(wkt)` then `GetX`/`GetY`:
  `none` models a raised exception. -/
  ogrParsePoint : String → Option (Dbl × Dbl)
  /-- `ogr.CreateGeometryFromWkt('POINT (x y)').ExportToWkt()`:
  `none` models a raised exception. -/
  ogrExportPoint : String → Option String

/-- A concrete hook assignment used for closed evaluations: every
external call fails/misses.  The claims settled with it never reach the
external code. -/
def trivialHooks : Hooks where
  reOk := fun _ => true
  reSearchJoined := fun _ _ => none
  reSub := fun _ _ s => s
  ogrParsePoint := fun _ => none
  ogrExportPoint := fun _ => none

/-! ## The fixed address patterns of conform.py

`prefixed_number_pattern`, `postfixed_street_pattern`,
`postfixed_street_with_units_pattern` and `postfixed_unit_pattern` are
fixed regular expressions; they are implemented here directly, following
Python `re` leftmost-match and backtracking-preference semantics.
Interior newlines interacting with backtracking across alternations are
not modelled (the engine's address strings are single-line). -/

/-- The house-number token of `prefixed_number_pattern`
(`\d+(?:[ -]\d/\d)?|\d+-\d+|\d+-?[A-Z]` followed by `\s+`), applied at
the start of `rest0`; returns the token characters (without the trailing
whitespace), trying the alternatives in Python's preference order. -/
def numToken (rest0 : List Char) : Option (List Char) :=
  let ds := rest0.takeWhile isDigitChar
  if ds.isEmpty then none else
  let after := rest0.drop ds.length
  let hasWs : List Char → Bool := fun l => (l.head?.map pyIsSpace).getD false
  let frac : Option (List Char) :=
    match after with
    | a :: b :: c :: d :: rest4 =>
      if (a = ' ' || a = '-') && isDigitChar b && c = '/' && isDigitChar d && hasWs rest4
      then some (ds ++ [a, b, c, d]) else none
    | _ => none
  match frac with
  | some t => some t
  | none =>
    if hasWs after then some ds
    else match after with
    | '-' :: rest2 =>
      let ds2 := rest2.takeWhile isDigitChar
      if (¬ ds2.isEmpty) && hasWs (rest2.drop ds2.length) then some (ds ++ '-' :: ds2)
      else
        match rest2 with
        | c :: rest3 => if isAsciiLetter c && hasWs rest3 then some (ds ++ ['-', c]) else none
        | [] => none
    | c :: rest3 => if isAsciiLetter c && hasWs rest3 then some (ds ++ [c]) else none
    | [] => none

/-- `prefixed_number_pattern.search(s)` followed by
`''.join(match.groups()) if match else ''`. -/
def prefixedNumberSearch (s : String) : String :=
  match numToken (s.toList.dropWhile pyIsSpace) with
  | some t => String.mk t
  | none => ""

/-- `postfixed_street_pattern.search(s)`: group 1 is `(.*)` after an
optional house-number prefix and its trailing whitespace run. -/
def postfixedStreetSearch (s : String) : String :=
  let cs := s.toList
  let rest0 := cs.dropWhile pyIsSpace
  match numToken rest0 with
  | some t =>
    String.mk (((rest0.drop t.length).dropWhile pyIsSpace).takeWhile (fun c => c ≠ '\n'))
  | none => String.mk (cs.takeWhile (fun c => c ≠ '\n'))

/-- The unit designators of `postfixed_unit_pattern` /
`postfixed_street_with_units_pattern`, in the pattern's alternation
order (a greedy optional dot means `APT.` is tried before `APT`, etc). -/
def unitTokens : List String :=
  ["UNIT", "APARTMENT", "APT.", "APT", "SUITE", "STE.", "STE",
   "BUILDING", "BLDG.", "BLDG", "LOT"]

/-- No newline (regex `.` with DOTALL off cannot match `\n`). -/
def noNL (l : List Char) : Bool := l.all (fun c => c ≠ '\n')

/-- Does `(?:(?:UNIT|…|LOT)\s+|#).+` (case-insensitive) match ALL of
`r`, i.e. up to the end of the (newline-stripped) string? -/
def unitBodyOK (r : List Char) : Bool :=
  (unitTokens.any fun t =>
    let tl := t.toList
    tl.isPrefixOf (r.map pyUpperChar) &&
      (let rest := r.drop tl.length
       let w := rest.takeWhile pyIsSpace
       -- `\s+` (one to w.length chars, with backtracking) then `.+` to the end
       decide (0 < w.length) &&
         (List.range w.length).any (fun j =>
           (¬ (rest.drop (j + 1)).isEmpty) && noNL (rest.drop (j + 1)))))
  ||
  (match r with
   | '#' :: rest => (¬ rest.isEmpty) && noNL rest
   | _ => false)

/-- `$` can match just before one final newline: strip it. -/
def stripFinalNL (cs : List Char) : List Char :=
  match cs.getLast? with
  | some '\n' => cs.dropLast
  | _ => cs

/-- `postfixed_unit_pattern.search(s)` followed by
`''.join(match.groups()) if match else ''`: the leftmost position where
a whitespace character is followed by a unit designator (or `#`) whose
tail matches to the end of the string; group 1 is everything after that
whitespace character. -/
def postfixedUnitSearch (s : String) : String :=
  match (List.range (stripFinalNL s.toList).length).find? (fun i =>
      match (stripFinalNL s.toList).drop i with
      | c :: rest => pyIsSpace c && unitBodyOK rest
      | [] => false) with
  | some i => String.mk ((stripFinalNL s.toList).drop (i + 1))
  | none => ""

/-- The optional trailing-unit group `(?:\s+(?:(?:UNIT|…)\s+|#).+)?$` of
`postfixed_street_with_units_pattern`, matched against all of `l`. -/
def unitTailOK (l : List Char) : Bool :=
  let w := l.takeWhile pyIsSpace
  decide (0 < w.length) && (List.range w.length).any (fun j => unitBodyOK (l.drop (j + 1)))

/-- The `(.+?)(?:\s+(?:TOK\s+|#).+)?$` tail: the lazy group takes the
smallest nonempty newline-free prefix of `tail` whose remainder is
either empty (`$`) or a unit tail. -/
def lazyStreet (tail : List Char) : Option (List Char) :=
  (List.range tail.length).findSome? (fun i =>
    let street := tail.take (i + 1)
    if noNL street && (unitTailOK (tail.drop (i + 1)) || (tail.drop (i + 1)).isEmpty)
    then some street else none)

/-- `postfixed_street_with_units_pattern.search(s)`: group 1 after an
optional house-number prefix (whose greedy `\s+` backtracks if the lazy
street group needs at least one character). -/
def postfixedStreetUnitsSearch (s : String) : String :=
  let core := stripFinalNL s.toList
  let rest0 := core.dropWhile pyIsSpace
  let viaNum : Option (List Char) :=
    match numToken rest0 with
    | some t =>
      let afterNum := (rest0.drop t.length)
      let w := afterNum.takeWhile pyIsSpace
      -- greedy `\s+`: longest whitespace run first, then shorter
      (List.range w.length).findSome? (fun j => lazyStreet (afterNum.drop (w.length - j)))
    | none => none
  match viaNum with
  | some st => String.mk st
  | none =>
    match lazyStreet core with
    | some st => String.mk st
    | none => ""

/-- `convert_regexp_replace`: rewrite `$N` and `${N}` back-references to
`\N` / `\g<N>`. -/
def convertRegexpReplaceGo : Nat → List Char → List Char
  | 0, l => l
  | _ + 1, [] => []
  | f + 1, '$' :: rest =>
    if rest.head? = some (Char.ofNat 123) then
      let r2 := rest.drop 1
      let ds := r2.takeWhile isDigitChar
      if (¬ ds.isEmpty) && ((r2.drop ds.length).head? = some (Char.ofNat 125)) then
        '\\' :: 'g' :: '<' :: (ds ++ '>' :: convertRegexpReplaceGo f (r2.drop (ds.length + 1)))
      else '$' :: convertRegexpReplaceGo f rest
    else
      let ds := rest.takeWhile isDigitChar
      if ds.isEmpty then '$' :: convertRegexpReplaceGo f rest
      else '\\' :: (ds ++ convertRegexpReplaceGo f (rest.drop ds.length))
  | f + 1, c :: rest => c :: convertRegexpReplaceGo f rest

/-- `convert_regexp_replace(replace)`. -/
def convertRegexpReplace (s : String) : String :=
  String.mk (convertRegexpReplaceGo (s.length + 1) s.toList)

/-! ## Row-level conform functions (`row_fxn_*`) -/

/-- Python truthiness of a function-node value. -/
def FVal.truthy : FVal → Bool
  | .s v => v ≠ ""
  | .ls v => ¬ v.isEmpty
  | .fs v => ¬ v.isEmpty
  | .b v => v

/-- Iterating a `fields` tag: a list yields its elements, a string
yields its characters (Python iterates strings), anything else raises
TypeError. -/
def fvalIterStrs : FVal → Except PyErr (List String)
  | .ls l => .ok l
  | .s s => .ok (s.toList.map (fun c => String.mk [c]))
  | _ => .error .typeError

/-- `sep.join(l)`. -/
def joinSep (sep : String) : List String → String
  | [] => ""
  | [x] => x
  | x :: y :: rest => x ++ sep ++ joinSep sep (y :: rest)

/-- The body of `row_fxn_join`'s `try` block. -/
def rowFxnJoinBody (row : Row) (key : String) (f : Fxn) : Except PyErr Row := do
  let sep ← match fget f "separator" with
    | none => Except.ok " "
    | some (.s s) => Except.ok s
    | some _ => Except.error PyErr.attrError
  let flds ← match fget f "fields" with
    | some v => fvalIterStrs v
    | none => Except.error (PyErr.keyError "fields")
  let vals ← flds.mapM (fun n => ditem row n >>= cellOrEmptyStrip)
  Except.ok (dset row ("oa:" ++ key) (.str (joinSep sep (vals.filter (fun v => v ≠ "")))))

/-- `row_fxn_join`: any failure inside the `try` is logged and the row is
returned unchanged. -/
def rowFxnJoin (row : Row) (key : String) (f : Fxn) : Row :=
  match rowFxnJoinBody row key f with
  | .ok r => r
  | .error _ => row

/-- `row[fxn["field"]]` where the result must be a string for a regex /
string-method application. -/
def fieldStrValue (row : Row) (f : Fxn) : Except PyErr String := do
  let fv ← fitem f "field"
  let name ← match fv with
    | .s n => Except.ok n
    | _ => Except.error PyErr.typeError
  let c ← ditem row name
  match c with
  | .str s => Except.ok s
  | _ => Except.error PyErr.typeError

/-- `row_fxn_regexp`. -/
def rowFxnRegexp (hooks : Hooks) (row : Row) (key : String) (f : Fxn) : Except PyErr Row := do
  let pat ← match fget f "pattern" with
    | some (.s p) => if hooks.reOk p then Except.ok p else Except.error PyErr.reError
    | _ => Except.error PyErr.typeError
  match fget f "replace" with
  | some (.s r) =>
    if r ≠ "" then do
      let v ← fieldStrValue row f
      Except.ok (dset row ("oa:" ++ key) (.str (hooks.reSub pat (convertRegexpReplace r) v)))
    else do
      let v ← fieldStrValue row f
      Except.ok (dset row ("oa:" ++ key) (.str ((hooks.reSearchJoined pat v).getD "")))
  | some fv =>
    if fv.truthy then Except.error PyErr.typeError
    else do
      let v ← fieldStrValue row f
      Except.ok (dset row ("oa:" ++ key) (.str ((hooks.reSearchJoined pat v).getD "")))
  | none => do
    let v ← fieldStrValue row f
    Except.ok (dset row ("oa:" ++ key) (.str ((hooks.reSearchJoined pat v).getD "")))

/-- `row_fxn_prefixed_number`. -/
def rowFxnPrefixedNumber (row : Row) (key : String) (f : Fxn) : Except PyErr Row := do
  let v ← fieldStrValue row f
  Except.ok (dset row ("oa:" ++ key) (.str (prefixedNumberSearch v)))

/-- `row_fxn_postfixed_street`. -/
def rowFxnPostfixedStreet (row : Row) (key : String) (f : Fxn) : Except PyErr Row := do
  let withUnits := ((fget f "may_contain_units").map FVal.truthy).getD false
  let v ← fieldStrValue row f
  Except.ok (dset row ("oa:" ++ key)
    (.str (if withUnits then postfixedStreetUnitsSearch v else postfixedStreetSearch v)))

/-- `row_fxn_postfixed_unit`. -/
def rowFxnPostfixedUnit (row : Row) (key : String) (f : Fxn) : Except PyErr Row := do
  let v ← fieldStrValue row f
  Except.ok (dset row ("oa:" ++ key) (.str (postfixedUnitSearch v)))

/-- `row[fxn[tag]]` as a plain cell (for string-method receivers the
caller checks the type itself). -/
def fieldCellValue (row : Row) (f : Fxn) (tag : String) : Except PyErr Cell := do
  let fv ← fitem f tag
  let name ← match fv with
    | .s n => Except.ok n
    | _ => Except.error PyErr.typeError
  ditem row name

/-- `row_fxn_remove_prefix` (source name `row_fxn_remove_prefix`):
strip `field_to_remove`'s value from the start of `field`'s value. -/
def rowFxnRemovePfx (row : Row) (key : String) (f : Fxn) : Except PyErr Row := do
  let fc ← fieldCellValue row f "field"
  let fs ← match fc with
    | .str s => Except.ok s
    | _ => Except.error PyErr.attrError
  let rc ← fieldCellValue row f "field_to_remove"
  let rs ← match rc with
    | .str s => Except.ok s
    | _ => Except.error PyErr.typeError
  if pyStartsWith fs rs then
    Except.ok (dset row ("oa:" ++ key)
      (.str (pyLstripSet [' '] (String.mk (fs.toList.drop rs.length)))))
  else
    Except.ok (dset row ("oa:" ++ key) (.str fs))

/-- `row_fxn_remove_postfix` (source name `row_fxn_remove_postfix`):
strip a nonempty `field_to_remove` value from the end of `field`'s
value. -/
def rowFxnRemoveSfx (row : Row) (key : String) (f : Fxn) : Except PyErr Row := do
  let rc ← fieldCellValue row f "field_to_remove"
  if rc ≠ .str "" then do
    let fc ← fieldCellValue row f "field"
    let fs ← match fc with
      | .str s => Except.ok s
      | _ => Except.error PyErr.attrError
    let rs ← match rc with
      | .str s => Except.ok s
      | _ => Except.error PyErr.typeError
    if pyEndsWith fs rs then
      Except.ok (dset row ("oa:" ++ key)
        (.str (pyRstripSet [' '] (String.mk (fs.toList.take (fs.length - rs.length))))))
    else
      Except.ok (dset row ("oa:" ++ key) (.str fs))
  else do
    let fc ← fieldCellValue row f "field"
    Except.ok (dset row ("oa:" ++ key) fc)

/-- The `$N` placeholder scanner (`format_var_pattern.finditer`):
`(start, end, N)` for each `\$([0-9]+)` occurrence, left to right. -/
def scanFormatVars : Nat → List Char → Nat → List (Nat × Nat × Nat)
  | 0, _, _ => []
  | _ + 1, [], _ => []
  | fuel + 1, '$' :: rest, i =>
    let ds := rest.takeWhile isDigitChar
    if ds.isEmpty then scanFormatVars fuel rest (i + 1)
    else (i, i + 1 + ds.length, digitsToNat ds) ::
      scanFormatVars fuel (rest.drop ds.length) (i + 1 + ds.length)
  | fuel + 1, _ :: rest, i => scanFormatVars fuel rest (i + 1)

/-- `format_str[a:b]`. -/
def strSlice (s : String) (a b : Nat) : String :=
  String.mk ((s.toList.drop a).take (b - a))

/-- One step of the `row_fxn_format` loop: state is
`(parts, idx, num_fields_added)`. -/
def formatStep (fmt : String) (vals : List String)
    (st : List String × Nat × Nat) (m : Nat × Nat × Nat) : List String × Nat × Nat :=
  let (parts, idx, numAdded) := st
  let (start, stop, fieldIdx) := m
  if 0 < fieldIdx ∧ fieldIdx - 1 < vals.length then
    let field := vals.getD (fieldIdx - 1) ""
    let parts :=
      if idx = 0 ∨ (0 < numAdded ∧ field ≠ "") then parts ++ [strSlice fmt idx start]
      else parts
    if field ≠ "" then
      let field := if pyEndsWith field ".0" then String.mk (field.toList.take (field.length - 2))
                   else field
      (parts ++ [field], stop, numAdded + 1)
    else
      (parts, stop, numAdded)
  else
    (parts, stop, numAdded)

/-- Error-propagating map (a Python list comprehension whose body can
raise). -/
def mapExcept {a b : Type} (g : a → Except PyErr b) : List a → Except PyErr (List b)
  | [] => .ok []
  | x :: rest =>
    match g x with
    | .error e => .error e
    | .ok v =>
      match mapExcept g rest with
      | .error e => .error e
      | .ok vs => .ok (v :: vs)

/-- `[(row[n] or '').strip() for n in fxn["fields"]]`. -/
def trimmedFieldVals (row : Row) (flds : List String) : Except PyErr (List String) :=
  mapExcept (fun n =>
    match ditem row n with
    | .error e => .error e
    | .ok c => cellOrEmptyStrip c) flds

/-- `row_fxn_format`. -/
def rowFxnFormat (row : Row) (key : String) (f : Fxn) : Except PyErr Row :=
  match fget f "fields" with
  | none => .error (.keyError "fields")
  | some fv =>
    match fvalIterStrs fv with
    | .error e => .error e
    | .ok flds =>
      match trimmedFieldVals row flds with
      | .error e => .error e
      | .ok vals =>
        match fget f "format" with
        | none => .error (.keyError "format")
        | some (.s fmt) =>
          let ms := scanFormatVars (fmt.length + 1) fmt.toList 0
          let st := ms.foldl (formatStep fmt vals) ([], 0, 0)
          if 0 < st.2.2 then
            .ok (dset row ("oa:" ++ key)
              (.str (joinSep "" (st.1 ++ [strSlice fmt st.2.1 fmt.length]))))
          else .ok (dset row ("oa:" ++ key) (.str ""))
        | some _ => .error .typeError

/-- `row[field] and row[field].strip()` used as a condition. -/
def cellNonBlank : Cell → Except PyErr Bool
  | .null => .ok false
  | .int n => if n = 0 then .ok false else .error .attrError
  | .str s => .ok (s ≠ "" ∧ pyStrip s ≠ "")

/-- The loop of `row_fxn_first_non_empty`: write the first listed field
whose value is truthy and trims to a nonempty string, then stop. -/
def firstNonEmptyLoop (row : Row) (key : String) : List String → Except PyErr Row
  | [] => .ok row
  | n :: rest =>
    match ditem row n with
    | .error e => .error e
    | .ok c =>
      match cellNonBlank c with
      | .error e => .error e
      | .ok b =>
        if b then .ok (dset row ("oa:" ++ key) c)
        else firstNonEmptyLoop row key rest

/-- `row_fxn_first_non_empty`. -/
def rowFxnFirstNonEmpty (row : Row) (key : String) (f : Fxn) : Except PyErr Row := do
  let flds ← match fget f "fields" with
    | none => Except.ok []
    | some v => fvalIterStrs v
  firstNonEmptyLoop row key flds

/-! ## The function dispatcher (`row_function`) and `chain` -/

mutual

/-- Fuel bound for recursing through nested function nodes. -/
def fvalFuel : FVal → Nat
  | .s _ => 1
  | .ls _ => 1
  | .b _ => 1
  | .fs l => 1 + fxnsFuel l

def fxnsFuel : List (List (String × FVal)) → Nat
  | [] => 1
  | f :: rest => 1 + pairsFuel f + fxnsFuel rest

def pairsFuel : List (String × FVal) → Nat
  | [] => 1
  | (_, v) :: rest => 1 + fvalFuel v + pairsFuel rest

end

/-- A pending call of the mutually recursive `row_function` /
`row_fxn_chain` pair, flattened so the interpreter is a single
fuel-structural function the kernel can evaluate: `.one` is a
`row_function` dispatch, `.seq` is the in-progress loop of
`row_fxn_chain` over its sub-functions. -/
inductive FxnTask where
  | one (row : Row) (key : String) (f : Fxn)
  | seq (fns : List Fxn) (row : Row) (key : String)

/-- `row_function` and the `row_fxn_chain` loop.  A `.one` task looks
up `fxn["function"]` and dispatches; a name matching no branch returns
the row unchanged (the source's `if`/`elif` chain has no `else`).  The
`chain` branch mirrors `row_fxn_chain`: an unused non-schema `variable`
is seeded with `''` and becomes the working key; after every sub-call a
truthy `row['oa:' + key]` is copied to `row[key]`; the final value is
copied to `row['oa:' + original_key.lower()]`. -/
def rowFunctionGo (hooks : Hooks) (sc : SourceConfig) :
    Nat → FxnTask → Except PyErr Row
  | 0, _ => .error .typeError
  | _ + 1, .seq [] row _ => .ok row
  | fuel + 1, .seq (fn :: rest) row key =>
    (match rowFunctionGo hooks sc fuel (.one row key fn) with
    | .error e => .error e
    | .ok row2 =>
      let row3 :=
        match dget row2 ("oa:" ++ key) with
        | some c => if c.truthy then dset row2 key c else row2
        | none => row2
      rowFunctionGo hooks sc fuel (.seq rest row3 key))
  | fuel + 1, .one row key f =>
    match fget f "function" with
    | none => .error (.keyError "function")
    | some fv =>
    let name : String := match fv with
      | .s n => n
      | _ => ""
    if name = "join" then Except.ok (rowFxnJoin row key f)
    else if name = "regexp" then rowFxnRegexp hooks row key f
    else if name = "format" then rowFxnFormat row key f
    else if name = "prefixed_number" then rowFxnPrefixedNumber row key f
    else if name = "postfixed_street" then rowFxnPostfixedStreet row key f
    else if name = "postfixed_unit" then rowFxnPostfixedUnit row key f
    else if name = "remove_prefix" then rowFxnRemovePfx row key f
    else if name = "remove_postfix" then rowFxnRemoveSfx row key f
    else if name = "chain" then
      match fitem f "functions" with
      | .error e => .error e
      | .ok fnsv =>
        match (match fnsv with
               | .fs l => Except.ok l
               | _ => Except.error PyErr.typeError : Except PyErr (List Fxn)) with
        | .error e => .error e
        | .ok fns =>
          match (match fget f "variable" with
                 | some (.s v) => Except.ok (if v ≠ "" then some v else none)
                 | some w => if w.truthy then Except.error PyErr.attrError
                             else Except.ok none
                 | none => Except.ok none : Except PyErr (Option String)) with
          | .error e => .error e
          | .ok act =>
            let rk : Row × String :=
              match act with
              | some v =>
                if pyLstripSet ['O', 'A', ':'] (pyUpper v) ∉ sc.SCHEMA ∧ ¬ dmem row v then
                  (dset row ("oa:" ++ v) (.str ""), v)
                else (row, key)
              | none => (row, key)
            match rowFunctionGo hooks sc fuel (.seq fns rk.1 rk.2) with
            | .error e => .error e
            | .ok row2 =>
              match ditem row2 ("oa:" ++ rk.2) with
              | .error e => .error e
              | .ok c => .ok (dset row2 ("oa:" ++ pyLower key) c)
    else if name = "first_non_empty" then rowFxnFirstNonEmpty row key f
    else Except.ok row

/-! ## Exact binary64 arithmetic for `_round_wgs84_to_7`

`float(n)`, `round(x, 7)` and `"%.12g" % x` are modelled exactly over
integers: a finite binary64 is `(-1)^neg * m * 2^e` with
`2^52 ≤ m < 2^53`; decimal/binary conversions are correctly rounded
with ties to even (CPython's `float`, `round` and `%g` all use David
Gay style correctly-rounded conversion).  Infinities, NaN payloads,
subnormals and `-0.0` are outside the coordinate ranges used and are
not modelled (`inf`/`nan` literals are treated as parse failures). -/

/-- Round `num/den` (with `den > 0`) to the nearest integer, ties to
even. -/
def rheDiv (num den : Nat) : Nat :=
  let q := num / den
  let r := num % den
  if 2 * r < den then q
  else if den < 2 * r then q + 1
  else if q % 2 = 0 then q else q + 1

/-- `a * 2^s ≤ b` for a signed exponent `s`. -/
def le2pow (a : Nat) (s : Int) (b : Nat) : Bool :=
  if 0 ≤ s then a * 2 ^ s.toNat ≤ b else a ≤ b * 2 ^ (-s).toNat

/-- Fuel-based floor of `log2`. -/
def natLog2F : Nat → Nat → Nat
  | 0, _ => 0
  | f + 1, n => if n < 2 then 0 else natLog2F f (n / 2) + 1

/-- Decrease `e` until `den * 2^(e+52) ≤ num`. -/
def eDown : Nat → Nat → Nat → Int → Int
  | 0, _, _, e => e
  | f + 1, num, den, e => if le2pow den (e + 52) num then e else eDown f num den (e - 1)

/-- Increase `e` while `den * 2^(e+53) ≤ num`. -/
def eUp : Nat → Nat → Nat → Int → Int
  | 0, _, _, e => e
  | f + 1, num, den, e => if le2pow den (e + 53) num then eUp f num den (e + 1) else e

/-- The binary64 nearest to `(-1)^neg * num/den` (ties to even). -/
def nearestDblRatio (neg : Bool) (num den : Nat) : Dbl :=
  if num = 0 then .zero else
  let e0 : Int := (natLog2F 400 num : Int) - (natLog2F 400 den : Int) - 53
  let e := eUp 200 num den (eDown 200 num den e0)
  let m := if 0 ≤ e then rheDiv num (den * 2 ^ e.toNat) else rheDiv (num * 2 ^ (-e).toNat) den
  if m = 2 ^ 53 then .num neg (2 ^ 52) (e + 1) else .num neg m e

/-- Python `round(x, 7)`: correctly round the exact value to 7 decimal
places (ties to even), then take the nearest binary64. -/
def roundPython7 (d : Dbl) : Dbl :=
  match d with
  | .zero => .zero
  | .num neg m e =>
    let t := if 0 ≤ e then m * 10 ^ 7 * 2 ^ e.toNat
             else rheDiv (m * 10 ^ 7) (2 ^ (-e).toNat)
    if t = 0 then .zero else nearestDblRatio neg t (10 ^ 7)

/-- Fuel-based floor of `log10`. -/
def natLog10F : Nat → Nat → Nat
  | 0, _ => 0
  | f + 1, n => if n < 10 then 0 else natLog10F f (n / 10) + 1

/-- `a * 10^s ≤ b` for a signed exponent `s`. -/
def le10pow (a : Nat) (s : Int) (b : Nat) : Bool :=
  if 0 ≤ s then a * 10 ^ s.toNat ≤ b else a ≤ b * 10 ^ (-s).toNat

/-- Decrease `E` until `den * 10^E ≤ num`. -/
def e10Down : Nat → Nat → Nat → Int → Int
  | 0, _, _, E => E
  | f + 1, num, den, E => if le10pow den E num then E else e10Down f num den (E - 1)

/-- Increase `E` while `den * 10^(E+1) ≤ num`. -/
def e10Up : Nat → Nat → Nat → Int → Int
  | 0, _, _, E => E
  | f + 1, num, den, E => if le10pow den (E + 1) num then e10Up f num den (E + 1) else E

/-- `⌊log10 (num/den)⌋` for positive `num/den`. -/
def decExpRatio (num den : Nat) : Int :=
  let E0 : Int := (natLog10F 400 num : Int) - (natLog10F 400 den : Int) - 1
  e10Up 200 num den (e10Down 200 num den E0)

/-- Decimal digits of `n`, least significant first. -/
def digitsRev : Nat → Nat → List Char
  | 0, _ => []
  | f + 1, n => if n = 0 then [] else Char.ofNat (48 + n % 10) :: digitsRev f (n / 10)

/-- Decimal digit string of `n`. -/
def natDigits (n : Nat) : List Char := if n = 0 then ['0'] else (digitsRev 40 n).reverse

/-- `%g` strips trailing zeros from the fractional part. -/
def stripTrailZeros (l : List Char) : List Char :=
  (l.reverse.dropWhile (fun c => c = '0')).reverse

/-- The decimal exponent `%.12g` selects for a nonzero binary64
(after rounding the significand to 12 digits). -/
def g12Exp (m : Nat) (e : Int) : Int :=
  let nd := if 0 ≤ e then (m * 2 ^ e.toNat, 1) else (m, 2 ^ (-e).toNat)
  let Eraw := decExpRatio nd.1 nd.2
  let Draw := if 0 ≤ Eraw - 11 then rheDiv nd.1 (nd.2 * 10 ^ (Eraw - 11).toNat)
              else rheDiv (nd.1 * 10 ^ (11 - Eraw).toNat) nd.2
  if Draw = 10 ^ 12 then Eraw + 1 else Eraw

/-- The rounded 12 significant digits `%.12g` renders. -/
def g12Digits (m : Nat) (e : Int) : List Char :=
  let nd := if 0 ≤ e then (m * 2 ^ e.toNat, 1) else (m, 2 ^ (-e).toNat)
  let Eraw := decExpRatio nd.1 nd.2
  let Draw := if 0 ≤ Eraw - 11 then rheDiv nd.1 (nd.2 * 10 ^ (Eraw - 11).toNat)
              else rheDiv (nd.1 * 10 ^ (11 - Eraw).toNat) nd.2
  natDigits (if Draw = 10 ^ 12 then 10 ^ 11 else Draw)

/-- `"%.12g" % x`: 12 correctly-rounded significant digits; exponent
notation exactly when the decimal exponent is `< -4` or `≥ 12` (the C
`%g` rule); trailing zeros stripped. -/
def format12g (d : Dbl) : String :=
  match d with
  | .zero => "0"
  | .num neg m e =>
    let E := g12Exp m e
    let ds := g12Digits m e
    let sign := if neg then "-" else ""
    if E < -4 ∨ 12 ≤ E then
      let mant :=
        match ds with
        | d0 :: rest =>
          let frac := stripTrailZeros rest
          if frac.isEmpty then String.mk [d0] else String.mk [d0] ++ "." ++ String.mk frac
        | [] => "0"
      let absE := (if E < 0 then -E else E).toNat
      let eds := natDigits absE
      let eds := if eds.length < 2 then '0' :: eds else eds
      sign ++ mant ++ "e" ++ (if E < 0 then "-" else "+") ++ String.mk eds
    else if 0 ≤ E then
      let ip := ds.take (E.toNat + 1)
      let frac := stripTrailZeros (ds.drop (E.toNat + 1))
      sign ++ String.mk ip ++ (if frac.isEmpty then "" else "." ++ String.mk frac)
    else
      let zeros := List.replicate ((-E).toNat - 1) '0'
      let frac := stripTrailZeros ds
      sign ++ "0." ++ String.mk (zeros ++ frac)

/-- The decimal-literal core of Python `float(...)`:
`digits [. digits] [e|E [+|-] digits]`, at least one mantissa digit. -/
def parseUnsignedDec (cs : List Char) : Option (Nat × Int) :=
  let ip := cs.takeWhile isDigitChar
  let rest := cs.drop ip.length
  let (fp, rest2) :=
    match rest with
    | '.' :: r => (r.takeWhile isDigitChar, r.drop (r.takeWhile isDigitChar).length)
    | _ => (([] : List Char), rest)
  if ip.isEmpty ∧ fp.isEmpty then none
  else
    let a := digitsToNat (ip ++ fp)
    let p : Int := -(fp.length : Int)
    match rest2 with
    | [] => some (a, p)
    | eC :: r3 =>
      if eC = 'e' ∨ eC = 'E' then
        let (esign, r4) : Int × List Char :=
          match r3 with
          | '+' :: r => (1, r)
          | '-' :: r => (-1, r)
          | _ => (1, r3)
        let eds := r4.takeWhile isDigitChar
        if eds.isEmpty ∨ ¬ (r4.drop eds.length).isEmpty then none
        else some (a, p + esign * (digitsToNat eds : Int))
      else none

/-- `float(s)` for finite decimal literals: sign, digits, power of ten.
`inf`/`nan` spellings and digit underscores are treated as parse
failures. -/
def pyParseFloat (s : String) : Option (Bool × Nat × Int) :=
  let cs := ((s.toList.dropWhile pyIsSpace).reverse.dropWhile pyIsSpace).reverse
  let sc : Bool × List Char :=
    match cs with
    | '+' :: r => (false, r)
    | '-' :: r => (true, r)
    | _ => (false, cs)
  (parseUnsignedDec sc.2).map (fun ap => (sc.1, ap.1, ap.2))

/-- The binary64 denoted by a parsed decimal literal. -/
def dblOfParsed (t : Bool × Nat × Int) : Dbl :=
  if 0 ≤ t.2.2 then nearestDblRatio t.1 (t.2.1 * 10 ^ t.2.2.toNat) 1
  else nearestDblRatio t.1 t.2.1 (10 ^ (-t.2.2).toNat)

/-- `_round_wgs84_to_7(n)` for a string argument: parse, round to 7
decimal places, format with `%.12g`; any failure returns the input
unchanged (the bare `except`). -/
def roundWgs84To7 (n : String) : String :=
  match pyParseFloat n with
  | none => n
  | some t => format12g (roundPython7 (dblOfParsed t))

/-- `_round_wgs84_to_7(x)` for a float argument (`geom.GetX()`):
`float` of a float is the identity, so no failure path. -/
def roundWgs84To7Dbl (d : Dbl) : String := format12g (roundPython7 d)

/-! ## Case smashing (`row_smash_case`, `fxn_smash_case`,
`conform_smash_case`) -/

/-- `row_smash_case`: rebuild the dict with lowercased keys
(dict-comprehension semantics: a repeated key keeps its first position
and takes the later value). -/
def rowSmashCase (r : Row) : Row :=
  r.foldl (fun acc kv => dset acc (pyLower kv.1) kv.2) []

/-- `fxn[k] = v` with dict update semantics. -/
def fsetF : Fxn → String → FVal → Fxn
  | [], k, v => [(k, v)]
  | kv :: rest, k, v => if kv.1 = k then (k, v) :: rest else kv :: fsetF rest k v

/-- Lowercase the `field` / `fields` / `field_to_remove` tags of one
node (shared by `fxn_smash_case` and the extra per-function loop of
`conform_smash_case`).  A string-valued `fields` is iterated character
by character, as Python's list comprehension would. -/
def lowerTopFields (f : Fxn) : Except PyErr Fxn := do
  let f ← match fget f "field" with
    | none => Except.ok f
    | some (.s v) => Except.ok (fsetF f "field" (.s (pyLower v)))
    | some _ => Except.error PyErr.attrError
  let f ← match fget f "fields" with
    | none => Except.ok f
    | some (.ls l) => Except.ok (fsetF f "fields" (.ls (l.map pyLower)))
    | some (.s sv) =>
      Except.ok (fsetF f "fields" (.ls (sv.toList.map (fun c => String.mk [pyLowerChar c]))))
    | some (.fs _) => Except.error PyErr.attrError
    | some (.b _) => Except.error PyErr.typeError
  match fget f "field_to_remove" with
  | none => Except.ok f
  | some (.s v) => Except.ok (fsetF f "field_to_remove" (.s (pyLower v)))
  | some _ => Except.error PyErr.attrError

/-- `fxn_smash_case`: `lowerTopFields` plus recursion through
`functions`. -/
def fxnSmashGo : Nat → Fxn → Except PyErr Fxn
  | 0, _ => .error .typeError
  | fuel + 1, f => do
    let f ← lowerTopFields f
    match fget f "functions" with
    | none => Except.ok f
    | some (.fs l) => do
      let l' ← l.mapM (fxnSmashGo fuel)
      Except.ok (fsetF f "functions" (.fs l'))
    | some (.ls l) =>
      -- iterating a list of strings: `"field" in sub_fxn` is substring
      -- containment; a hit would index into the string (TypeError)
      if l.any (fun s => pyInStr "field" s ∨ pyInStr "fields" s ∨
          pyInStr "field_to_remove" s ∨ pyInStr "functions" s) then
        Except.error PyErr.typeError
      else Except.ok f
    | some (.s sv) =>
      if sv.toList.any (fun _ => false) then Except.error PyErr.typeError else Except.ok f
    | some (.b _) => Except.error PyErr.typeError

/-- `fxn_smash_case(fxn)`. -/
def fxnSmash (f : Fxn) : Except PyErr Fxn := fxnSmashGo (pairsFuel f + 1) f

/-- The redundant extra loop of `conform_smash_case` over one level of
`functions` (skipping non-dict entries). -/
def extraFunctionsLower (fx : Fxn) : Except PyErr Fxn :=
  match fget fx "functions" with
  | some (.fs l) => do
    let l' ← l.mapM lowerTopFields
    Except.ok (fsetF fx "functions" (.fs l'))
  | _ => Except.ok fx

/-- `conform_smash_case(data_source)`: deep-copies and lowercases all
named field references; raises KeyError when there is no conform
block. -/
def conformSmashCase (ds : DataSource) : Except PyErr DataSource := do
  let c ← match ds.conform with
    | some c => Except.ok c
    | none => Except.error (PyErr.keyError "conform")
  let c' ← c.mapM (fun kv => do
    match kv.2 with
    | .s sv =>
      Except.ok (kv.1, if pyUpper kv.1 ∈ RESERVED_SCHEMA then CVal.s (pyLower sv) else CVal.s sv)
    | .ls l => Except.ok (kv.1, CVal.ls (l.map pyLower))
    | .f fx => do
      let fx ← fxnSmash fx
      let fx ← extraFunctionsLower fx
      Except.ok (kv.1, CVal.f fx))
  Except.ok { ds with conform := some c' }

/-! ## Output assembly and canonicalization -/

/-- `row_merge`: join the named source columns with single spaces under
`oa:key`. -/
def rowMerge (sc : SourceConfig) (row : Row) (key : String) : Except PyErr Row := do
  let c ← match sc.dataSource.conform with
    | some c => Except.ok c
    | none => Except.error (PyErr.keyError "conform")
  match cget c key with
  | some (.ls flds) => do
    let cells ← flds.mapM (ditem row)
    let strs ← cells.mapM (fun cc =>
      match cc with
      | .str s => Except.ok s
      | _ => Except.error PyErr.typeError)
    Except.ok (dset row ("oa:" ++ key) (.str (joinSep " " strs)))
  | _ => Except.error PyErr.typeError

/-- The conform fallback of `row_convert_to_out` for a schema field:
look up the literal source field named by the conform entry (a
non-string conform entry has no `.lower` and raises AttributeError),
else the empty string. -/
def convertFieldFallback (conf : Conform) (row : Row) (field : String) : Except PyErr Cell :=
  match cget conf (pyLower field) with
  | some cv =>
    if cv.truthy then
      match cv with
      | .s name => .ok ((dget row (pyLower name)).getD .null)
      | _ => .error .attrError
    else .ok (.str "")
  | none => .ok (.str "")

/-- The per-field dispatch of `row_convert_to_out`: a present, non-`None`
`oa:` value wins, else the conform fallback. -/
def convertFieldCell (conf : Conform) (row : Row) (field : String) : Except PyErr Cell :=
  match dget row ("oa:" ++ pyLower field) with
  | some c =>
    if c = .null then convertFieldFallback conf row field else .ok c
  | none => convertFieldFallback conf row field

/-- The schema loop of `row_convert_to_out`. -/
def convertFields (conf : Conform) (row : Row) : List String → Row → Except PyErr Row
  | [], out => .ok out
  | field :: rest, out =>
    match convertFieldCell conf row field with
    | .error e => .error e
    | .ok c => convertFields conf row rest (out ++ [(field, c)])

/-- `row_convert_to_out`: assemble the fixed output schema, preferring
the derived `oa:` value, else the literal source field named by the
conform entry, else the empty string. -/
def rowConvertToOut (sc : SourceConfig) (row : Row) : Except PyErr Row :=
  match sc.dataSource.conform with
  | none => .error (.keyError "conform")
  | some conf =>
    convertFields conf row sc.SCHEMA [("GEOM", (dget row (pyLower GEOM_FIELDNAME)).getD .null)]

/-- `row_canonicalize_unit_and_number`: trim UNIT/NUMBER/STREET, strip a
trailing `.0` from NUMBER. -/
def rowCanonicalizeUnitAndNumber (row : Row) : Except PyErr Row :=
  match ditem row "UNIT" with
  | .error e => .error e
  | .ok cu =>
    match cellOrEmptyStrip cu with
    | .error e => .error e
    | .ok u =>
      match ditem (dset row "UNIT" (.str u)) "NUMBER" with
      | .error e => .error e
      | .ok cn =>
        match cellOrEmptyStrip cn with
        | .error e => .error e
        | .ok n0 =>
          match ditem (dset (dset row "UNIT" (.str u)) "NUMBER"
              (.str (if pyEndsWith n0 ".0" then String.mk (n0.toList.take (n0.length - 2))
                     else n0))) "STREET" with
          | .error e => .error e
          | .ok cs =>
            match cellOrEmptyStrip cs with
            | .error e => .error e
            | .ok s =>
              .ok (dset (dset (dset row "UNIT" (.str u)) "NUMBER"
                (.str (if pyEndsWith n0 ".0" then String.mk (n0.toList.take (n0.length - 2))
                       else n0))) "STREET" (.str s))

/-- `row_round_lat_lon`: on a GEOM containing `POINT`, parse it via OGR,
round both coordinates with `_round_wgs84_to_7` and re-export; any
exception inside the `try` leaves the row unchanged.  `'POINT' in x`
for a non-string GEOM raises outside the `try`. -/
def rowRoundLatLon (hooks : Hooks) (row : Row) : Except PyErr Row :=
  match dget row "GEOM" with
  | none => .ok row
  | some .null => .ok row
  | some (.str g) =>
    if pyInStr "POINT" g then
      match hooks.ogrParsePoint g with
      | none => .ok row
      | some dxy =>
        let x := roundWgs84To7Dbl dxy.1
        let y := roundWgs84To7Dbl dxy.2
        match hooks.ogrExportPoint ("POINT (" ++ x ++ " " ++ y ++ ")") with
        | none => .ok row
        | some w => .ok (dset row "GEOM" (.str w))
    else .ok row
  | some (.int _) => .error .typeError

/-! ## JSON serialization and SHA-1 (`row_calculate_hash`) -/

/-- Lower-case hex digit. -/
def hexCharOf (n : Nat) : Char :=
  if n % 16 < 10 then Char.ofNat (48 + n % 16) else Char.ofNat (87 + n % 16)

/-- `\uXXXX` escape. -/
def uEsc (n : Nat) : String :=
  "\\u" ++ String.mk [hexCharOf (n / 4096), hexCharOf (n / 256), hexCharOf (n / 16), hexCharOf n]

/-- JSON string escaping of one character (`json.dumps`); with
`ascii = true` (the default `ensure_ascii=True`) non-ASCII characters
become `\uXXXX` escapes (surrogate pairs above the BMP). -/
def jsonEscChar (ascii : Bool) (c : Char) : String :=
  if c = '"' then "\\\""
  else if c = '\\' then "\\\\"
  else if c = '\n' then "\\n"
  else if c = '\r' then "\\r"
  else if c = '\t' then "\\t"
  else if c = Char.ofNat 8 then "\\b"
  else if c = Char.ofNat 12 then "\\f"
  else if c.toNat < 32 then uEsc c.toNat
  else if ascii ∧ 127 ≤ c.toNat then
    if c.toNat < 65536 then uEsc c.toNat
    else uEsc (55296 + (c.toNat - 65536) / 1024) ++ uEsc (56320 + (c.toNat - 65536) % 1024)
  else String.mk [c]

/-- A JSON string literal. -/
def jsonStr (ascii : Bool) (s : String) : String :=
  "\"" ++ joinSep "" (s.toList.map (jsonEscChar ascii)) ++ "\""

/-- Decimal rendering of an integer. -/
def intStr (n : Int) : String :=
  if n < 0 then "-" ++ String.mk (natDigits (-n).toNat) else String.mk (natDigits n.toNat)

/-- A JSON value for a cell. -/
def jsonCell (ascii : Bool) : Cell → String
  | .str s => jsonStr ascii s
  | .null => "null"
  | .int n => intStr n

/-- Insertion sort of row items by key (`sorted(row.items())`; keys are
unique so tuple comparison never reaches the values). -/
def insertByKey (p : String × Cell) : Row → Row
  | [] => [p]
  | q :: rest =>
    if strLtPy q.1.toList p.1.toList then q :: insertByKey p rest else p :: q :: rest

/-- `sorted(row.items())`. -/
def sortByKey (r : Row) : Row := r.foldr insertByKey []

/-- `json.dumps(sorted(row.items()), separators=(',', ':'))`: a JSON
array of two-element arrays, no whitespace, ASCII-escaped. -/
def jsonSortedItems (r : Row) : String :=
  "[" ++
    joinSep "," ((sortByKey r).map (fun kv =>
      "[" ++ jsonStr true kv.1 ++ "," ++ jsonCell true kv.2 ++ "]")) ++
  "]"

/-- `json.dumps(d, ensure_ascii=False)` with default separators
`(', ', ': ')`, insertion order. -/
def jsonDumpObj (ascii : Bool) (r : Row) : String :=
  String.mk [Char.ofNat 123] ++
    joinSep ", " (r.map (fun kv => jsonStr ascii kv.1 ++ ": " ++ jsonCell ascii kv.2)) ++
  String.mk [Char.ofNat 125]

/-- UTF-8 bytes of one character. -/
def utf8Char (c : Char) : List Nat :=
  let n := c.toNat
  if n < 128 then [n]
  else if n < 2048 then [192 + n / 64, 128 + n % 64]
  else if n < 65536 then [224 + n / 4096, 128 + n / 64 % 64, 128 + n % 64]
  else [240 + n / 262144, 128 + n / 4096 % 64, 128 + n / 64 % 64, 128 + n % 64]

/-- `s.encode('utf8')`. -/
def utf8Encode (s : String) : List Nat := (s.toList.map utf8Char).flatten

/-- Truncate to 32 bits. -/
def w32 (n : Nat) : Nat := n % 4294967296

/-- 32-bit left rotation (input below `2^32`). -/
def rotl (b n : Nat) : Nat := (n * 2 ^ b) % 4294967296 + n / 2 ^ (32 - b)

/-- SHA-1 round function. -/
def sha1F (t b c d : Nat) : Nat :=
  if t < 20 then (b &&& c) ||| ((4294967295 - b) &&& d)
  else if t < 40 then b ^^^ c ^^^ d
  else if t < 60 then (b &&& c) ||| (b &&& d) ||| (c &&& d)
  else b ^^^ c ^^^ d

/-- SHA-1 round constants. -/
def sha1K (t : Nat) : Nat :=
  if t < 20 then 1518500249
  else if t < 40 then 1859775393
  else if t < 60 then 2400959708
  else 3395469782

/-- Big-endian 8-byte length field. -/
def bigEndian8 (n : Nat) : List Nat :=
  [n / 72057594037927936 % 256, n / 281474976710656 % 256, n / 1099511627776 % 256,
   n / 4294967296 % 256, n / 16777216 % 256, n / 65536 % 256, n / 256 % 256, n % 256]

/-- SHA-1 padding. -/
def sha1Pad (msg : List Nat) : List Nat :=
  let z := (119 - msg.length % 64) % 64
  msg ++ 128 :: List.replicate z 0 ++ bigEndian8 (msg.length * 8)

/-- Split into 64-byte blocks. -/
def chunks64 : Nat → List Nat → List (List Nat)
  | 0, _ => []
  | _ + 1, [] => []
  | fuel + 1, l => l.take 64 :: chunks64 fuel (l.drop 64)

/-- Four bytes to one 32-bit word, big endian. -/
def bytesToWords : List Nat → List Nat
  | a :: b :: c :: d :: rest => (a * 16777216 + b * 65536 + c * 256 + d) :: bytesToWords rest
  | _ => []

/-- Message-schedule extension: prepend 64 new words to the reversed
16-word list. -/
def extendW : Nat → List Nat → List Nat
  | 0, acc => acc
  | fuel + 1, acc =>
    extendW fuel
      (rotl 1 (acc.getD 2 0 ^^^ acc.getD 7 0 ^^^ acc.getD 13 0 ^^^ acc.getD 15 0) :: acc)

/-- The 80-entry message schedule. -/
def scheduleW (ws : List Nat) : List Nat := (extendW 64 ws.reverse).reverse

/-- One compression round; the state carries the round index. -/
def sha1Step (st : Nat × (Nat × Nat × Nat × Nat × Nat)) (wt : Nat) :
    Nat × (Nat × Nat × Nat × Nat × Nat) :=
  let t := st.1
  let (a, b, c, d, e) := st.2
  let tmp := w32 (rotl 5 a + sha1F t b c d + e + sha1K t + wt)
  (t + 1, (tmp, a, rotl 30 b, c, d))

/-- Compress one 64-byte block. -/
def sha1Block (h : Nat × Nat × Nat × Nat × Nat) (block : List Nat) :
    Nat × Nat × Nat × Nat × Nat :=
  let ws := scheduleW (bytesToWords block)
  let (h0, h1, h2, h3, h4) := h
  let r := (ws.foldl sha1Step (0, (h0, h1, h2, h3, h4))).2
  (w32 (h0 + r.1), w32 (h1 + r.2.1), w32 (h2 + r.2.2.1), w32 (h3 + r.2.2.2.1),
   w32 (h4 + r.2.2.2.2))

/-- One word to four bytes, big endian. -/
def wordBytes (w : Nat) : List Nat :=
  [w / 16777216 % 256, w / 65536 % 256, w / 256 % 256, w % 256]

/-- SHA-1 digest (20 bytes) of a byte string. -/
def sha1Bytes (msg : List Nat) : List Nat :=
  let blocks := chunks64 (msg.length / 64 + 2) (sha1Pad msg)
  let h := blocks.foldl sha1Block (1732584193, 4023233417, 2562383102, 271733878, 3285377520)
  wordBytes h.1 ++ wordBytes h.2.1 ++ wordBytes h.2.2.1 ++ wordBytes h.2.2.2.1 ++
    wordBytes h.2.2.2.2

/-- `hexdigest()`: two lowercase hex characters per byte. -/
def hexDigestChars (bytes : List Nat) : List Char :=
  bytes.foldr (fun b acc => hexCharOf (b / 16) :: hexCharOf b :: acc) []

/-- `row_calculate_hash`: seed SHA-1 with the fingerprint, feed the
key-sorted JSON items, store the first 16 hex characters under
`HASH`. -/
def rowCalculateHash (fp : String) (row : Row) : Row :=
  let payload := utf8Encode fp ++ utf8Encode (jsonSortedItems row)
  dset row "HASH" (.str (String.mk ((hexDigestChars (sha1Bytes payload)).take 16)))

/-! ## The full row transform (`row_transform_and_convert`) -/

/-- `row_function` entry point with an adequate fuel bound. -/
def rowFunction (hooks : Hooks) (sc : SourceConfig) (row : Row) (key : String) (f : Fxn) :
    Except PyErr Row :=
  rowFunctionGo hooks sc (pairsFuel f + 1) (.one row key f)

/-- The attribute-tag loop of `row_transform_and_convert`: for each
conform entry under a schema key, a list is a merge shortcut and a dict
is a processing function. -/
def conformSteps (hooks : Hooks) (sc : SourceConfig) :
    List (String × CVal) → Row → Except PyErr Row
  | [], row => .ok row
  | (k, v) :: rest, row => do
    let row ←
      if pyUpper k ∈ sc.SCHEMA then
        match v with
        | .ls _ => rowMerge sc row k
        | .f fx => rowFunction hooks sc row k fx
        | .s _ => Except.ok row
      else Except.ok row
    conformSteps hooks sc rest row

/-- `row_transform_and_convert(source_config, row)`.  `u` is the
`str(uuid4())` draw used as the fingerprint fallback when the source
has none — the only nondeterministic input. -/
def rowTransformAndConvert (hooks : Hooks) (sc : SourceConfig) (u : String) (row : Row) :
    Except PyErr Row :=
  match sc.dataSource.conform with
  | none => .error (.keyError "conform")
  | some c =>
    match conformSteps hooks sc c (rowSmashCase row) with
    | .error e => .error e
    | .ok row2 =>
      match rowConvertToOut sc row2 with
      | .error e => .error e
      | .ok row3 =>
        match (if sc.layer = Layer.addresses then
                 match rowCanonicalizeUnitAndNumber row3 with
                 | Except.error e => Except.error e
                 | Except.ok row4 => rowRoundLatLon hooks row4
               else Except.ok row3 : Except PyErr Row) with
        | .error e => .error e
        | .ok row5 => .ok (rowCalculateHash (sc.dataSource.fingerprint.getD u) row5)

/-- The writer loop of `transform_to_out_csv`: transform each
`(index, row)` pair in order; the first raised exception propagates
(rows already written stay written, but the source fails). -/
def transformRowsGo (hooks : Hooks) (sc : SourceConfig) (uuids : Nat → String) :
    List (Nat × Row) → Except PyErr (List Row)
  | [] => .ok []
  | p :: rest =>
    match rowTransformAndConvert hooks sc (uuids p.1) p.2 with
    | .error e => .error e
    | .ok out =>
      match transformRowsGo hooks sc uuids rest with
      | .error e => .error e
      | .ok outs => .ok (out :: outs)

/-- `transform_to_out_csv`: smash the conform spec once, then transform
every extracted row in order.  There is no per-row exception handling:
the first raising row aborts the source.  `uuids` supplies the
per-row `uuid4` draws. -/
def transformToOutCsv (hooks : Hooks) (sc : SourceConfig) (uuids : Nat → String)
    (rows : List Row) : Except PyErr (List Row) :=
  match conformSmashCase sc.dataSource with
  | .error e => .error e
  | .ok ds => transformRowsGo hooks { sc with dataSource := ds } uuids rows.enum

/-- The early gate of `conform_cli`: `true` when the source is rejected
(return code 1) before any extraction — no conform block, or a format
tag not among the known five. -/
def conformCliGate (sc : SourceConfig) : Bool :=
  match sc.dataSource.conform with
  | none => true
  | some c =>
    match cget c "format" with
    | some (.s f) =>
      ¬ (f = "shapefile" ∨ f = "geojson" ∨ f = "csv" ∨ f = "xml" ∨ f = "gdb")
    | _ => true

/-! ## The acceptance-test runner (`check_source_tests`) -/

/-- The failure message of `check_source_tests`. -/
def mkTestFailMsg (desc expectedJson actualJson : String) : String :=
  "For " ++ desc ++ ", expected " ++ expectedJson ++ " but got " ++ actualJson

/-- The fixture loop of `check_source_tests`: the actual row is the
smashed transform output restricted to the keys of the raw expected
fixture, compared against the smashed expected fixture. -/
def runAcceptanceLoop (hooks : Hooks) (uuids : Nat → String) (sc : SourceConfig) :
    Nat → List AcceptanceTest → Except PyErr (Option Bool × Option String)
  | _, [] => .ok (some true, none)
  | idx, t :: rest =>
    match rowTransformAndConvert hooks sc (uuids idx) (rowSmashCase t.inputs) with
    | .error e => .error e
    | .ok outRow =>
      if rowEquiv ((rowSmashCase outRow).filter (fun kv => dmem t.expected kv.1))
          (rowSmashCase t.expected) then
        runAcceptanceLoop hooks uuids sc (idx + 1) rest
      else
        .ok (some false, some (mkTestFailMsg
          (t.description.getD ("test " ++ String.mk (natDigits idx)))
          (jsonDumpObj false (rowSmashCase t.expected))
          (jsonDumpObj false ((rowSmashCase outRow).filter (fun kv => dmem t.expected kv.1)))))

/-- The `conform_smash_case` wrapped in `try/except` at the top of
`check_source_tests`: failures leave the data source unchanged. -/
def smashedDS (ds : DataSource) : DataSource :=
  match conformSmashCase ds with
  | .ok d => d
  | .error _ => ds

/-- `source_test.get('enabled', True)`. -/
def testsEnabled (ds : DataSource) : Bool :=
  match ds.test with
  | some tb => tb.enabled.getD true
  | none => true

/-- `source_test.get('acceptance-tests')`, with `None` as no fixtures. -/
def testFixtures (ds : DataSource) : List AcceptanceTest :=
  match ds.test with
  | some tb => tb.acceptanceTests.getD []
  | none => []

/-- `check_source_tests(source_config)`: `(None, None)` when tests are
disabled or there are no acceptance fixtures, else run the fixtures in
order through the full row transform. -/
def checkSourceTests (hooks : Hooks) (uuids : Nat → String) (sc : SourceConfig) :
    Except PyErr (Option Bool × Option String) :=
  if !testsEnabled (smashedDS sc.dataSource)
      || (testFixtures (smashedDS sc.dataSource)).isEmpty then .ok (none, none)
  else runAcceptanceLoop hooks uuids { sc with dataSource := smashedDS sc.dataSource } 0
    (testFixtures (smashedDS sc.dataSource))

/-! ## Geometry extraction (`row_extract_and_reproject`), pure paths -/

/-- The outcome of `row_extract_and_reproject`: a finished output row,
a raised error, or entry into the external OGR reprojection /
point-on-surface code with the state built so far (the `srs` branch or
the addresses-layer centroid branch). -/
inductive ExtractOut where
  | ok (r : Row)
  | err (e : PyErr)
  | ogr (outRow : Row) (geom : Cell)
deriving Repr

/-- `row_extract_and_reproject(source_config, source_row)`. -/
def rowExtractAndReproject (sc : SourceConfig) (sourceRow : Row) : ExtractOut :=
  match sc.dataSource.conform with
  | none => .err (.keyError "conform")
  | some conf =>
    match sc.dataSource.protocol with
    | none => .err (.keyError "protocol")
    | some _ =>
      let gUP := dget sourceRow GEOM_FIELDNAME
      let gLO := dget sourceRow "OA:geom"
      let sourceGeom : Option Cell :=
        match gUP with
        | some c => if c ≠ .null then some c else
            match gLO with
            | some c2 => if c2.truthy then some c2 else none
            | none => none
        | none =>
          match gLO with
          | some c2 => if c2.truthy then some c2 else none
          | none => none
      let outRow := match gLO with
        | some c2 => if c2 ≠ .null then ddel sourceRow "OA:geom" else sourceRow
        | none => sourceRow
      if sourceGeom = some (.str "POINT (nan nan)") then
        .ok (dset outRow GEOM_FIELDNAME .null)
      else
        let latlon :=
          if sourceGeom = none then
            match cget conf "lat", cget conf "lon" with
            | some la, some lo => some (la, lo)
            | _, _ => none
          else none
        match latlon with
        | some (la, lo) =>
          (match la, lo with
          | .s latName, .s lonName =>
            let getXY : String → Except PyErr Cell := fun nm =>
              match dget sourceRow nm with
              | some c => .ok c
              | none =>
                match dget sourceRow (pyUpper nm) with
                | some c => .ok c
                | none => .error (.keyError (pyUpper nm))
            (match getXY lonName, getXY latName with
            | .ok cx, .ok cy =>
              let outRow := [lonName, pyUpper lonName, latName, pyUpper latName].foldl
                ddel outRow
              (match cx, cy with
              | .str sx, .str sy =>
                let sx := pyReplaceChar ',' '.' sx
                let sy := pyReplaceChar ',' '.' sy
                if sx = "" ∨ sy = "" then .ok (dset outRow GEOM_FIELDNAME .null)
                else
                  afterGeom sc conf outRow (.str ("POINT (" ++ sx ++ " " ++ sy ++ ")"))
              | _, _ => .ok (dset outRow GEOM_FIELDNAME .null))
            | .error e, _ => .err e
            | _, .error e => .err e)
          | _, _ => .err .typeError)
        | none =>
          afterGeom sc conf outRow (match sourceGeom with
            | some c => c
            | none => .null)
where
  /-- The tail of the function: the `srs` reprojection branch and the
  addresses-layer point-on-surface branch both call into OGR; otherwise
  the geometry is stored as is. -/
  afterGeom (sc : SourceConfig) (conf : Conform) (outRow : Row) (geom : Cell) : ExtractOut :=
    let srsOn := match cget conf "srs" with
      | some (.s v) => v ≠ "EPSG:4326"
      | some _ => true
      | none => false
    if srsOn || (sc.layer == Layer.addresses) then .ogr outRow geom
    else .ok (dset outRow GEOM_FIELDNAME geom)

/-! ## The Esri field-requirement resolver (`cache.py`) -/

/-- Python `set` semantics over `Option String` elements (a `set` may
hold `None` from `v.get('field')`), represented as a duplicate-free
list; iteration order is irrelevant because the resolver sorts at the
end. -/
def setInsert (x : Option String) (l : List (Option String)) : List (Option String) :=
  if x ∈ l then l else l ++ [x]

/-- Set union. -/
def setUnion (a b : List (Option String)) : List (Option String) :=
  b.foldl (fun acc x => setInsert x acc) a

/-- Set difference. -/
def setDiff (a b : List (Option String)) : List (Option String) :=
  a.filter (fun x => ¬ b.contains x)

/-- `set(xs)`. -/
def pySet (xs : List (Option String)) : List (Option String) :=
  xs.foldl (fun acc x => setInsert x acc) []

/-- `fields_from_conform_function(v)`: the source fields referenced by
one function node.  `join`/`format` contribute their `fields` list;
`chain` recurses into its sub-functions, removing its own `variable`;
`constant` contributes nothing; every other function contributes
`v.get('field')` (note: `field_to_remove` is never collected). -/
def fieldsFromConformFunction : Nat → Fxn → Except PyErr (List (Option String))
  | 0, _ => .error .typeError
  | fuel + 1, v =>
    let fxnName : Option String := match fget v "function" with
      | some (.s n) => if n ≠ "" then some n else none
      | _ => none
    match fxnName with
    | none => .ok []
    | some fxn =>
      if fxn = "join" ∨ fxn = "format" then
        match fitem v "fields" with
        | .ok (.ls l) => .ok (pySet (l.map some))
        | .ok (.s sv) => .ok (pySet (sv.toList.map (fun c => some (String.mk [c]))))
        | .ok _ => .error .typeError
        | .error e => .error e
      else if fxn = "chain" then
        match fitem v "variable" with
        | .error e => .error e
        | .ok (.s var) =>
          (match fitem v "functions" with
          | .error e => .error e
          | .ok (.fs l) =>
            l.foldlM (fun acc func =>
              if (fget func "function").isSome then do
                let fs ← fieldsFromConformFunction fuel func
                Except.ok (setUnion acc (setDiff fs [some var]))
              else Except.ok acc) ([] : List (Option String))
          | .ok _ => .error .typeError)
        | .ok _ => .error .typeError
      else if fxn = "constant" then .ok []
      else
        .ok [match fget v "field" with
             | some (.s n) => some n
             | _ => none]

/-- Python ordering on the collected elements (`None` is unorderable
against strings). -/
def optLtPy : Option String → Option String → Bool
  | none, _ => true
  | some _, none => false
  | some a, some b => strLtPy a.toList b.toList

/-- Insertion sort step by `optLtPy`. -/
def insertOpt (x : Option String) : List (Option String) → List (Option String)
  | [] => [x]
  | y :: rest => if optLtPy y x then y :: insertOpt x rest else x :: y :: rest

/-- `sorted(fields)`; mixing `None` with strings raises TypeError. -/
def pySortedOptStrs (s : List (Option String)) : Except PyErr (List (Option String)) :=
  if none ∈ s ∧ 1 < s.length then .error .typeError
  else .ok (s.foldr insertOpt [])

/-- `field_names_to_request(source_config)`: `None` when there is no
conform block (or nothing was collected), else the sorted, blank-free
list of referenced source fields for conform entries whose key is in
`SCHEMA` (an exact, case-sensitive membership test). -/
def fieldNamesToRequest (sc : SourceConfig) : Except PyErr (Option (List String)) := do
  match sc.dataSource.conform with
  | none => .ok none
  | some conf =>
    if conf.isEmpty then .ok none else do
    let fields ← conf.foldlM (fun acc kv => do
      let (k, v) := kv
      if k ∈ sc.SCHEMA then
        match v with
        | .f fx =>
          if (fget fx "function").isSome then do
            let fs ← fieldsFromConformFunction (pairsFuel fx + 1) fx
            Except.ok (setUnion acc fs)
          else Except.ok acc
        | .ls l => Except.ok (setUnion acc (pySet (l.map some)))
        | .s sv => Except.ok (setInsert (some sv) acc)
      else Except.ok acc) ([] : List (Option String))
    if ¬ fields.isEmpty then do
      let srt ← pySortedOptStrs fields
      Except.ok (some ((srt.filterMap id).filter (fun x => x ≠ "")))
    else Except.ok none

/-! ## Shared lemmas about the embedding -/

theorem dget_cons (k' : String) (v' : Cell) (r : Row) (k : String) :
    dget ((k', v') :: r) k = if k' = k then some v' else dget r k := by
  by_cases h : k' = k <;> simp [dget, List.find?, h]

theorem dget_expand (kv : String × Cell) (r : Row) (k : String) :
    dget (kv :: r) k = if kv.1 = k then some kv.2 else dget r k := by
  by_cases h : kv.1 = k <;> simp [dget, List.find?, h]

theorem dget_dset_self (r : Row) (k : String) (v : Cell) :
    dget (dset r k v) k = some v := by
  induction r with
  | nil => simp [dset, dget, List.find?]
  | cons kv rest ih =>
    by_cases h : kv.1 = k
    · simp [dset, h, dget, List.find?]
    · simp [dset, h, dget_expand, ih]

theorem dget_dset_ne (r : Row) (k k' : String) (v : Cell) (h : k ≠ k') :
    dget (dset r k' v) k = dget r k := by
  have h' : k' ≠ k := fun hh => h hh.symm
  induction r with
  | nil => simp [dset, dget_cons, h', dget]
  | cons kv rest ih =>
    by_cases hk : kv.1 = k'
    · rw [show dset (kv :: rest) k' v = (k', v) :: rest from by simp [dset, hk]]
      rw [dget_cons, dget_expand, hk]
      simp [h']
    · rw [show dset (kv :: rest) k' v = kv :: dset rest k' v from by simp [dset, hk]]
      rw [dget_expand, dget_expand, ih]

theorem dset_id (r : Row) (k : String) (v : Cell) (h : dget r k = some v) :
    dset r k v = r := by
  induction r with
  | nil => simp [dget] at h
  | cons kv rest ih =>
    rw [dget_expand] at h
    by_cases hk : kv.1 = k
    · simp [hk] at h
      show (if kv.1 = k then (k, v) :: rest else kv :: dset rest k v) = kv :: rest
      rw [if_pos hk, ← hk, ← h]
    · simp [hk] at h
      simp [dset, hk, ih h]

theorem dget_ddel_ne (r : Row) (k k' : String) (h : k ≠ k') :
    dget (ddel r k') k = dget r k := by
  induction r with
  | nil => rfl
  | cons kv rest ih =>
    by_cases hk : kv.1 = k'
    · have h2 : kv.1 ≠ k := by rw [hk]; exact fun hh => h hh.symm
      rw [show ddel (kv :: rest) k' = ddel rest k' from by simp [ddel, hk]]
      rw [dget_expand, if_neg h2, ih]
    · rw [show ddel (kv :: rest) k' = kv :: ddel rest k' from by simp [ddel, hk]]
      rw [dget_expand, dget_expand, ih]

theorem dmem_dset_self (r : Row) (k : String) (v : Cell) :
    dmem (dset r k v) k = true := by
  simp [dmem, dget_dset_self]

theorem head_dropWhile_false {p : Char → Bool} :
    ∀ (l : List Char) (a : Char), (l.dropWhile p).head? = some a → p a = false := by
  intro l a h
  induction l with
  | nil => simp [List.dropWhile] at h
  | cons x rest ih =>
    by_cases hx : p x
    · simp [List.dropWhile, hx] at h
      exact ih h
    · simp [List.dropWhile, hx] at h
      rw [← h]
      exact Bool.eq_false_iff.mpr hx

theorem dropWhile_of_head_false {p : Char → Bool} {l : List Char}
    (h : ∀ a, l.head? = some a → p a = false) : l.dropWhile p = l := by
  cases l with
  | nil => rfl
  | cons x rest => simp [List.dropWhile, h x rfl]

theorem dropWhile_idem (p : Char → Bool) (l : List Char) :
    (l.dropWhile p).dropWhile p = l.dropWhile p :=
  dropWhile_of_head_false (fun a ha => head_dropWhile_false l a ha)

theorem getLast?_dropWhile (p : Char → Bool) :
    ∀ l : List Char, l.dropWhile p ≠ [] → (l.dropWhile p).getLast? = l.getLast? := by
  intro l
  induction l with
  | nil => intro h; simp [List.dropWhile] at h
  | cons x rest ih =>
    intro h
    by_cases hx : p x
    · simp only [List.dropWhile, hx, if_pos] at h ⊢
      rw [ih h]
      have hr : rest ≠ [] := by
        intro he
        rw [he] at h
        simp [List.dropWhile] at h
      cases rest with
      | nil => exact absurd rfl hr
      | cons y t => simp [List.getLast?_cons_cons]
    · simp [List.dropWhile, hx]

/-- `str.strip()` is idempotent. -/
theorem pyStrip_idem (s : String) : pyStrip (pyStrip s) = pyStrip s := by
  unfold pyStrip
  congr 1
  set u := s.toList.dropWhile pyIsSpace with hu
  set w := u.reverse.dropWhile pyIsSpace with hw
  show (((String.mk w.reverse).toList.dropWhile pyIsSpace).reverse.dropWhile
      pyIsSpace).reverse = w.reverse
  have htl : (String.mk w.reverse).toList = w.reverse := rfl
  rw [htl]
  by_cases hwe : w = []
  · simp [hwe, List.dropWhile]
  · have hstep1 : w.reverse.dropWhile pyIsSpace = w.reverse := by
      refine dropWhile_of_head_false ?_
      intro a ha
      rw [List.head?_reverse] at ha
      rw [hw, getLast?_dropWhile pyIsSpace u.reverse (hw ▸ hwe)] at ha
      rw [List.getLast?_reverse] at ha
      exact head_dropWhile_false s.toList a (hu ▸ ha)
    rw [hstep1, List.reverse_reverse, hw, dropWhile_idem]

/-- Lowercase-hex digit test (spec reading of "16-hex-character"). -/
def isHexDigitChar (c : Char) : Bool :=
  ('0' ≤ c ∧ c ≤ '9') ∨ ('a' ≤ c ∧ c ≤ 'f') ∨ ('A' ≤ c ∧ c ≤ 'F')

theorem hexCharOf_isHexDigit (n : Nat) : isHexDigitChar (hexCharOf n) = true := by
  have h : n % 16 < 16 := Nat.mod_lt _ (by norm_num)
  have haux : ∀ m, m < 16 →
      isHexDigitChar (if m < 10 then Char.ofNat (48 + m) else Char.ofNat (87 + m)) = true := by
    decide
  have := haux (n % 16) h
  simpa [hexCharOf] using this

theorem hexDigestChars_length (bytes : List Nat) :
    (hexDigestChars bytes).length = 2 * bytes.length := by
  induction bytes with
  | nil => rfl
  | cons b rest ih =>
    show (hexCharOf (b / 16) :: hexCharOf b :: hexDigestChars rest).length = _
    simp [ih]
    omega

theorem hexDigestChars_hex (bytes : List Nat) :
    ∀ c ∈ hexDigestChars bytes, isHexDigitChar c = true := by
  induction bytes with
  | nil => intro c hc; simp [hexDigestChars] at hc
  | cons b rest ih =>
    intro c hc
    have hc' : c = hexCharOf (b / 16) ∨ c = hexCharOf b ∨ c ∈ hexDigestChars rest := by
      simpa [hexDigestChars] using hc
    rcases hc' with rfl | rfl | hmem
    · exact hexCharOf_isHexDigit _
    · exact hexCharOf_isHexDigit _
    · exact ih c hmem

theorem sha1Bytes_length (msg : List Nat) : (sha1Bytes msg).length = 20 := by
  simp [sha1Bytes, wordBytes]

/-- The HASH cell written by `row_calculate_hash` is always a 16-character
lowercase-hex string. -/
theorem rowCalculateHash_hash (fp : String) (r : Row) :
    ∃ h, dget (rowCalculateHash fp r) "HASH" = some (.str h) ∧
      h.length = 16 ∧ h.toList.all isHexDigitChar = true := by
  refine ⟨String.mk (List.take 16 (hexDigestChars (sha1Bytes
    (utf8Encode fp ++ utf8Encode (jsonSortedItems r))))), ?_, ?_, ?_⟩
  · show dget (dset r "HASH" _) "HASH" = _
    rw [dget_dset_self]
  · show (List.take 16 (hexDigestChars (sha1Bytes
      (utf8Encode fp ++ utf8Encode (jsonSortedItems r))))).length = 16
    rw [List.length_take, hexDigestChars_length, sha1Bytes_length]
    decide
  · show (List.take 16 (hexDigestChars (sha1Bytes
      (utf8Encode fp ++ utf8Encode (jsonSortedItems r))))).all isHexDigitChar = true
    rw [List.all_eq_true]
    intro c hc
    have hc2 : c ∈ hexDigestChars (sha1Bytes
        (utf8Encode fp ++ utf8Encode (jsonSortedItems r))) := List.take_subset 16 _ hc
    exact hexDigestChars_hex _ c hc2

/-- Inversion: a successful `row_transform_and_convert` always ends in
`row_calculate_hash`. -/
theorem transform_hash_shape (hooks : Hooks) (sc : SourceConfig) (u : String) (row : Row)
    (r : Row) (hok : rowTransformAndConvert hooks sc u row = .ok r) :
    ∃ fp r0, r = rowCalculateHash fp r0 := by
  unfold rowTransformAndConvert at hok
  repeat' split at hok
  all_goals first
    | exact ⟨_, _, (Except.ok.inj hok).symm⟩
    | exact absurd hok (by simp)

/-- C1: for a fixed fingerprint the full row transform is a pure
function of `(spec, row)` — in particular it does not depend on the
`uuid4` fallback draw — and every successful output carries a
16-hex-character HASH field.  Byte-identical reruns follow. -/
theorem C1_transform_deterministic (hooks : Hooks) (sc : SourceConfig) (u1 u2 : String)
    (row : Row) (fp : String) (hfp : sc.dataSource.fingerprint = some fp) :
    rowTransformAndConvert hooks sc u1 row = rowTransformAndConvert hooks sc u2 row ∧
    ∀ r h, rowTransformAndConvert hooks sc u1 row = .ok r →
      dget r "HASH" = some (.str h) →
      h.length = 16 ∧ h.toList.all isHexDigitChar = true := by
  constructor
  · simp [rowTransformAndConvert, hfp]
  · intro r h hok hh
    obtain ⟨fp', r0, rfl⟩ := transform_hash_shape hooks sc u1 row r hok
    obtain ⟨h', hget, hlen, hhex⟩ := rowCalculateHash_hash fp' r0
    rw [hget] at hh
    have : h' = h := by injection hh with hh2; injection hh2
    rw [← this]
    exact ⟨hlen, hhex⟩

/-- A fingerprinted parcels source used to witness C1. -/
def scC1w : SourceConfig :=
  { layer := .parcels,
    dataSource :=
      { conform := some [("pid", .s "p")], protocol := some "http",
        fingerprint := some "f", test := none } }

theorem C1_transform_deterministic_witness :
    rowTransformAndConvert trivialHooks scC1w "uuid-draw-1" [("p", .str "1")] =
      rowTransformAndConvert trivialHooks scC1w "uuid-draw-2" [("p", .str "1")] ∧
    ∀ r h, rowTransformAndConvert trivialHooks scC1w "uuid-draw-1" [("p", .str "1")] = .ok r →
      dget r "HASH" = some (.str h) →
      h.length = 16 ∧ h.toList.all isHexDigitChar = true :=
  C1_transform_deterministic trivialHooks scC1w "uuid-draw-1" "uuid-draw-2"
    [("p", .str "1")] "f" rfl

/-- The chain node of the field-resolver scenario: a `format` over
`a1`/`a2` chained into a `remove_postfix` of `b1` from the chain
variable `foo`. -/
def c2ChainFxn : Fxn :=
  [("function", .s "chain"), ("variable", .s "foo"),
   ("functions", .fs [[("function", .s "format"), ("fields", .ls ["a1", "a2"])],
                      [("function", .s "remove_postfix"), ("field", .s "foo"),
                       ("field_to_remove", .s "b1")]])]

/-- An addresses source whose only schema-keyed conform entry is the
chain above (keyed as `SCHEMA` spells it, so the resolver's exact
membership test accepts it). -/
def c2SC : SourceConfig :=
  { layer := .addresses,
    dataSource :=
      { conform := some [("STREET", .f c2ChainFxn)], protocol := some "http",
        fingerprint := none, test := none } }

/-- C2 counterexample: on the claimed chain spec the resolver returns
exactly `["a1", "a2"]` — `b1` (the `field_to_remove`) is NOT in the
result, contradicting the claimed set `{a1, a2, b1}`. -/
theorem C2_resolver_counterexample :
    fieldNamesToRequest c2SC = .ok (some ["a1", "a2"]) ∧ "b1" ∉ ["a1", "a2"] :=
  ⟨by decide, by decide⟩

/-- C2 (amended): the resolver returns `None` (request all fields) when
the conform block is absent; on the chain spec it returns exactly the
deduplicated, sorted, blank-free set `{a1, a2}` — the chain's own
variable `foo` is excluded, and so is `field_to_remove` (`b1`), which
the resolver never collects. -/
theorem C2_resolver_amended :
    (∀ sc : SourceConfig, sc.dataSource.conform = none →
      fieldNamesToRequest sc = .ok none) ∧
    fieldNamesToRequest c2SC = .ok (some ["a1", "a2"]) ∧
    (∀ l, fieldNamesToRequest c2SC = .ok (some l) → "foo" ∉ l ∧ "b1" ∉ l) := by
  refine ⟨?_, by decide, ?_⟩
  · intro sc h
    simp [fieldNamesToRequest, h]
  · intro l h
    have he : fieldNamesToRequest c2SC = .ok (some ["a1", "a2"]) := by decide
    rw [he] at h
    have : ["a1", "a2"] = l := by
      injection h with h2
      injection h2
    rw [← this]
    exact ⟨by decide, by decide⟩

/-- A source with no conform block, for the C2 witness. -/
def c2NoConformSC : SourceConfig :=
  { layer := .addresses,
    dataSource := { conform := none, protocol := none, fingerprint := none, test := none } }

theorem C2_resolver_amended_witness :
    fieldNamesToRequest c2NoConformSC = .ok none ∧
    ("foo" ∉ ["a1", "a2"] ∧ "b1" ∉ ["a1", "a2"]) :=
  ⟨C2_resolver_amended.1 c2NoConformSC rfl,
   C2_resolver_amended.2.2 ["a1", "a2"] (by decide)⟩

/-- A `regexp` node with no `pattern` tag: `re.compile(False)` raises
TypeError. -/
def c3BadRegexp : Fxn := [("function", .s "regexp"), ("field", .s "s")]

/-- An addresses source using the bad regexp node for `street`. -/
def c3SC : SourceConfig :=
  { layer := .addresses,
    dataSource :=
      { conform := some [("street", .f c3BadRegexp), ("format", .s "csv")],
        protocol := some "http", fingerprint := some "f", test := none } }

/-- A function node with an unknown function name. -/
def c3UnknownFxn : Fxn := [("function", .s "frobnicate")]

/-- C3 counterexample: a row-level failure (missing regex pattern on
row 1) aborts the whole source instead of skipping that row — the
second, well-formed row produces no output — and an unknown function
name does not abort anything: the row passes through unchanged. -/
theorem C3_error_handling_counterexample :
    transformToOutCsv trivialHooks c3SC (fun _ => "u")
      [[("s", .str "x")], [("s", .str "y")]] = .error .typeError ∧
    rowFunction trivialHooks c3SC [("s", .str "x")] "street" c3UnknownFxn =
      .ok [("s", .str "x")] :=
  ⟨by decide, by decide⟩

/-- C3 (amended): only the `join` function absorbs its own failures
(logging and leaving the row unchanged); any other row-level error
propagates out of the transform loop, aborting the whole source at the
first failing row; an unknown function name is silently ignored (the
dispatcher has no else branch); and `conform_cli` rejects a source
before any row processing exactly at the spec level — a missing conform
block or an unknown format. -/
theorem C3_error_handling_amended :
    (∀ (row : Row) (key : String) (f : Fxn) (e : PyErr),
      rowFxnJoinBody row key f = .error e → rowFxnJoin row key f = row) ∧
    (∀ (hooks : Hooks) (sc : SourceConfig) (us : Nat → String) (ds' : DataSource)
       (r : Row) (rest : List Row) (e : PyErr),
      conformSmashCase sc.dataSource = .ok ds' →
      rowTransformAndConvert hooks { sc with dataSource := ds' } (us 0) r = .error e →
      transformToOutCsv hooks sc us (r :: rest) = .error e) ∧
    (∀ (hooks : Hooks) (sc : SourceConfig) (row : Row) (key : String) (f : Fxn)
       (name : String),
      fget f "function" = some (.s name) →
      name ∉ ["join", "regexp", "format", "prefixed_number", "postfixed_street",
              "postfixed_unit", "remove_prefix", "remove_postfix", "chain",
              "first_non_empty"] →
      rowFunction hooks sc row key f = .ok row) ∧
    (∀ sc : SourceConfig, sc.dataSource.conform = none → conformCliGate sc = true) ∧
    (∀ (sc : SourceConfig) (c : Conform) (fmt : String),
      sc.dataSource.conform = some c → cget c "format" = some (.s fmt) →
      fmt ∉ ["shapefile", "geojson", "csv", "xml", "gdb"] →
      conformCliGate sc = true) := by
  refine ⟨?_, ?_, ?_, ?_, ?_⟩
  · intro row key f e h
    simp [rowFxnJoin, h]
  · intro hooks sc us ds' r rest e h1 h2
    simp only [transformToOutCsv, h1]
    simp [List.enum_cons, transformRowsGo, h2]
  · intro hooks sc row key f name h1 h2
    simp only [List.mem_cons, List.mem_singleton, not_or] at h2
    obtain ⟨n1, n2, n3, n4, n5, n6, n7, n8, n9, n10, -⟩ := h2
    simp [rowFunction, rowFunctionGo, fitem, h1, n1, n2, n3, n4, n5, n6, n7, n8, n9, n10]
  · intro sc h
    simp [conformCliGate, h]
  · intro sc c fmt h1 h2 h3
    simp only [List.mem_cons, List.mem_singleton, not_or] at h3
    obtain ⟨m1, m2, m3, m4, m5, -⟩ := h3
    simp [conformCliGate, h1, h2, m1, m2, m3, m4, m5]

theorem C3_error_handling_amended_witness :
    rowFxnJoin [("a", .str "1")] "k" [("function", .s "join")] = [("a", .str "1")] ∧
    transformToOutCsv trivialHooks c3SC (fun _ => "u")
      [[("s", .str "x")], [("s", .str "y")]] = .error .typeError ∧
    rowFunction trivialHooks c3SC [("s", .str "x")] "street" c3UnknownFxn =
      .ok [("s", .str "x")] ∧
    conformCliGate c2NoConformSC = true :=
  ⟨C3_error_handling_amended.1 [("a", .str "1")] "k" [("function", .s "join")]
     (.keyError "fields") (by decide),
   C3_error_handling_amended.2.1 trivialHooks c3SC (fun _ => "u") c3SC.dataSource
     [("s", .str "x")] [[("s", .str "y")]] .typeError (by rfl) (by decide),
   C3_error_handling_amended.2.2.1 trivialHooks c3SC [("s", .str "x")] "street"
     c3UnknownFxn "frobnicate" (by rfl) (by decide),
   C3_error_handling_amended.2.2.2.1 c2NoConformSC rfl⟩

/-- All-blank field values make `trimmedFieldVals` a list of empty
strings. -/
theorem trimmedFieldVals_all_empty (row : Row) :
    ∀ fields : List String,
      (∀ n ∈ fields, ∃ c, dget row n = some c ∧ cellOrEmptyStrip c = .ok "") →
      trimmedFieldVals row fields = .ok (List.replicate fields.length "") := by
  intro fields h
  induction fields with
  | nil => rfl
  | cons n rest ih =>
    obtain ⟨c, hc, he⟩ := h n (List.mem_cons_self n rest)
    have hrest := ih (fun m hm => h m (List.mem_cons_of_mem n hm))
    have hd : ditem row n = .ok c := by simp [ditem, hc]
    simp only [trimmedFieldVals, mapExcept] at hrest ⊢
    simp only [hd, he, hrest]
    simp [List.replicate_succ]

/-- With all-empty substituted values the format fold never counts a
field as added. -/
theorem formatFold_no_fields (fmt : String) (vals : List String)
    (hv : ∀ v ∈ vals, v = "") :
    ∀ (ms : List (Nat × Nat × Nat)) (parts : List String) (idx : Nat),
      (ms.foldl (formatStep fmt vals) (parts, idx, 0)).2.2 = 0 := by
  intro ms
  induction ms with
  | nil => intro parts idx; rfl
  | cons m rest ih =>
    intro parts idx
    have hget : ∀ i, vals.getD i "" = "" := by
      intro i
      by_cases hi : i < vals.length
      · rw [List.getD_eq_getElem vals "" hi]
        exact hv _ (List.getElem_mem hi)
      · rw [List.getD_eq_default vals "" (Nat.le_of_not_lt hi)]
    rw [List.foldl_cons]
    obtain ⟨start, stop, fieldIdx⟩ := m
    by_cases hb : 0 < fieldIdx ∧ fieldIdx - 1 < vals.length
    · simp only [formatStep, if_pos hb, hget _]
      rw [if_neg (by simp)]
      exact ih _ _
    · simp only [formatStep, if_neg hb]
      exact ih _ _

/-- The scenario of the worked `format` example. -/
def c4Fxn : Fxn :=
  [("function", .s "format"), ("fields", .ls ["a1", "a2", "a3"]),
   ("format", .s "$1-$2-$3")]

/-- Its input row. -/
def c4Row : Row := [("a1", .str "12.0"), ("a2", .str "34"), ("a3", .str "56")]

/-- C4: on fields `a1="12.0"`, `a2="34"`, `a3="56"` with template
`"$1-$2-$3"` the `format` function derives `"12-34-56"` (placeholders
substituted left to right, the trailing `.0` stripped); and whenever
every referenced field trims to blank, the whole result is the empty
string (so no literal template text survives). -/
theorem C4_format_function :
    rowFxnFormat c4Row "number" c4Fxn =
      .ok (c4Row ++ [("oa:number", .str "12-34-56")]) ∧
    (∀ (row : Row) (key : String) (f : Fxn) (fields : List String) (fmt : String),
      fget f "fields" = some (.ls fields) →
      fget f "format" = some (.s fmt) →
      (∀ n ∈ fields, ∃ c, dget row n = some c ∧ cellOrEmptyStrip c = .ok "") →
      rowFxnFormat row key f = .ok (dset row ("oa:" ++ key) (.str ""))) := by
  constructor
  · decide
  · intro row key f fields fmt h1 h2 h3
    have hvals := trimmedFieldVals_all_empty row fields h3
    have hnum := formatFold_no_fields fmt (List.replicate fields.length "")
      (by intro v hv; exact List.eq_of_mem_replicate hv)
      (scanFormatVars (fmt.length + 1) fmt.toList 0) [] 0
    have h4 : ¬ 0 < (List.foldl (formatStep fmt (List.replicate fields.length ""))
        ([], 0, 0) (scanFormatVars (fmt.length + 1) fmt.toList 0)).2.2 := by
      rw [hnum]
      omega
    simp only [rowFxnFormat, h1, fvalIterStrs, hvals, h2, if_neg h4]

/-- A row where every referenced field is blank, for the C4 witness. -/
def c4BlankRow : Row := [("a1", .str " "), ("a2", .str ""), ("a3", .str "")]

theorem C4_format_function_witness :
    rowFxnFormat c4Row "number" c4Fxn =
      .ok (c4Row ++ [("oa:number", .str "12-34-56")]) ∧
    rowFxnFormat c4BlankRow "number" c4Fxn =
      .ok (dset c4BlankRow "oa:number" (.str "")) :=
  ⟨C4_format_function.1,
   C4_format_function.2 c4BlankRow "number" c4Fxn ["a1", "a2", "a3"] "$1-$2-$3"
     (by rfl) (by rfl)
     (by
       intro n hn
       fin_cases hn
       · exact ⟨.str " ", by decide, by decide⟩
       · exact ⟨.str "", by decide, by decide⟩
       · exact ⟨.str "", by decide, by decide⟩)⟩

/-- The `postfixed_unit` node over a `street` column. -/
def c7Fxn : Fxn := [("function", .s "postfixed_unit"), ("field", .s "street")]

/-- A street with a dotted unit designator. -/
def c7RowApt : Row := [("street", .str "Main Street Apt. 300")]

/-- A street where `STE` occurs only inside the word `Haste`. -/
def c7RowHaste : Row := [("street", .str "Main Street Haste 300")]

/-- C7: `postfixed_unit` extracts `"Apt. 300"` from
`"Main Street Apt. 300"`, extracts nothing from
`"Main Street Haste 300"` (the designator must directly follow a
whitespace character, so a word boundary always precedes it), and in
general the result is either the empty string (no match) or the suffix
after the leftmost whitespace character that is followed by a unit
designator (or `#`) matching to end of string. -/
theorem C7_postfixed_unit :
    rowFxnPostfixedUnit c7RowApt "unit" c7Fxn =
      .ok (c7RowApt ++ [("oa:unit", .str "Apt. 300")]) ∧
    rowFxnPostfixedUnit c7RowHaste "unit" c7Fxn =
      .ok (c7RowHaste ++ [("oa:unit", .str "")]) ∧
    (∀ s : String, postfixedUnitSearch s = "" ∨
      ∃ i, i < (stripFinalNL s.toList).length ∧
        pyIsSpace ((stripFinalNL s.toList).getD i ' ') = true ∧
        unitBodyOK ((stripFinalNL s.toList).drop (i + 1)) = true ∧
        postfixedUnitSearch s = String.mk ((stripFinalNL s.toList).drop (i + 1))) := by
  refine ⟨by decide, by decide, ?_⟩
  intro s
  unfold postfixedUnitSearch
  cases hf : (List.range (stripFinalNL s.toList).length).find? (fun i =>
      match (stripFinalNL s.toList).drop i with
      | c :: rest => pyIsSpace c && unitBodyOK rest
      | [] => false) with
  | none => left; rfl
  | some i =>
    right
    have hp := List.find?_some hf
    have hrange : i < (stripFinalNL s.toList).length :=
      List.mem_range.mp (List.mem_of_find?_eq_some hf)
    have hdrop : (stripFinalNL s.toList).drop i =
        (stripFinalNL s.toList).getD i ' ' :: (stripFinalNL s.toList).drop (i + 1) := by
      rw [List.getD_eq_getElem _ _ hrange]
      exact List.drop_eq_getElem_cons hrange
    rw [hdrop] at hp
    simp only [Bool.and_eq_true] at hp
    exact ⟨i, hrange, hp.1, hp.2, rfl⟩

/-- All referenced fields blank: the loop writes nothing. -/
theorem firstNonEmptyLoop_all_blank (row : Row) (key : String) :
    ∀ fields : List String,
      (∀ n ∈ fields, ∃ c, dget row n = some c ∧ cellNonBlank c = .ok false) →
      firstNonEmptyLoop row key fields = .ok row := by
  intro fields h
  induction fields with
  | nil => rfl
  | cons n rest ih =>
    obtain ⟨c, hc, hb⟩ := h n (List.mem_cons_self n rest)
    have hd : ditem row n = .ok c := by simp [ditem, hc]
    simp only [firstNonEmptyLoop, hd, hb]
    simpa using ih (fun m hm => h m (List.mem_cons_of_mem n hm))

/-- The `first_non_empty` node of the all-blank scenario. -/
def c6Fxn : Fxn := [("function", .s "first_non_empty"), ("fields", .ls ["a", "b"])]

/-- An addresses source whose NUMBER is derived by `c6Fxn`. -/
def c6SC : SourceConfig :=
  { layer := .addresses,
    dataSource :=
      { conform := some [("number", .f c6Fxn)], protocol := some "http",
        fingerprint := some "f", test := none } }

/-- A row where both referenced fields are blank. -/
def c6Row : Row := [("a", .str ""), ("b", .str " ")]

/-- C6 counterexample: with all referenced fields blank the function
indeed writes nothing, but the row then produces NO assembled output at
all — `row_convert_to_out` raises AttributeError (`dict.lower`) — so
the claimed distinguishable final output does not exist. -/
theorem C6_first_non_empty_counterexample :
    rowFxnFirstNonEmpty c6Row "number" c6Fxn = .ok c6Row ∧
    rowTransformAndConvert trivialHooks c6SC "u" c6Row = .error .attrError :=
  ⟨by decide, by decide⟩

/-- C6 (amended): `first_non_empty` over all-blank fields writes no
derived value at all (the row is returned unchanged — absence, not an
empty string); but during final assembly a function-node conform entry
with no derived value is passed to `.lower()`, so the row raises
AttributeError and yields no output row. -/
theorem C6_first_non_empty_amended :
    (∀ (row : Row) (key : String) (f : Fxn) (fields : List String),
      fget f "fields" = some (.ls fields) →
      (∀ n ∈ fields, ∃ c, dget row n = some c ∧ cellNonBlank c = .ok false) →
      rowFxnFirstNonEmpty row key f = .ok row) ∧
    (∀ (sc : SourceConfig) (conf : Conform) (row : Row) (field : String)
       (rest : List String) (fx : Fxn),
      sc.dataSource.conform = some conf →
      sc.SCHEMA = field :: rest →
      (dget row ("oa:" ++ pyLower field) = none ∨
        dget row ("oa:" ++ pyLower field) = some .null) →
      cget conf (pyLower field) = some (.f fx) →
      fx ≠ [] →
      rowConvertToOut sc row = .error .attrError) := by
  constructor
  · intro row key f fields h1 h2
    simp only [rowFxnFirstNonEmpty, h1, fvalIterStrs]
    exact firstNonEmptyLoop_all_blank row key fields h2
  · intro sc conf row field rest fx h1 h2 h3 h4 h5
    have hcell : convertFieldCell conf row field = .error .attrError := by
      have hfb : convertFieldFallback conf row field = .error .attrError := by
        have ht : CVal.truthy (.f fx) = true := by
          simp [CVal.truthy, h5]
        simp [convertFieldFallback, h4, ht]
      rcases h3 with h3 | h3 <;> simp [convertFieldCell, h3, hfb]
    simp [rowConvertToOut, h1, h2, convertFields, hcell]

theorem C6_first_non_empty_amended_witness :
    rowFxnFirstNonEmpty c6Row "number" c6Fxn = .ok c6Row ∧
    rowConvertToOut c6SC c6Row = .error .attrError :=
  ⟨C6_first_non_empty_amended.1 c6Row "number" c6Fxn ["a", "b"] (by rfl)
     (by
       intro n hn
       fin_cases hn
       · exact ⟨.str "", by decide, by decide⟩
       · exact ⟨.str " ", by decide, by decide⟩),
   C6_first_non_empty_amended.2 c6SC [("number", .f c6Fxn)] c6Row "NUMBER"
     ["STREET", "UNIT", "CITY", "DISTRICT", "REGION", "POSTCODE", "ID"] c6Fxn
     (by rfl) (by rfl) (Or.inl (by decide)) (by rfl) (by simp [c6Fxn])⟩

/-! ## C5: idempotence of canonicalization -/

/-- `row_canonicalize` of the spec: the addresses-layer canonicalization
step of `row_transform_and_convert` — `row_canonicalize_unit_and_number`
followed by `row_round_lat_lon`. -/
def rowCanonicalize (hooks : Hooks) (row : Row) : Except PyErr Row :=
  match rowCanonicalizeUnitAndNumber row with
  | .error e => .error e
  | .ok r1 => rowRoundLatLon hooks r1

/-- Any string produced by `(cell or '').strip()` is already stripped. -/
theorem cellOrEmptyStrip_stripped (c : Cell) (v : String)
    (h : cellOrEmptyStrip c = .ok v) : pyStrip v = v := by
  cases c with
  | str s =>
    simp only [cellOrEmptyStrip, Except.ok.injEq] at h
    rw [← h]; exact pyStrip_idem s
  | null =>
    simp only [cellOrEmptyStrip, Except.ok.injEq] at h
    rw [← h]; decide
  | int m =>
    simp only [cellOrEmptyStrip] at h
    split at h
    · rw [← Except.ok.inj h]; decide
    · exact absurd h (by simp)

/-- `row_canonicalize_unit_and_number` fixes any row whose UNIT, NUMBER
and STREET are already-stripped strings and whose NUMBER does not end in
`.0`. -/
theorem canonUnitNumber_fixpoint (r : Row) (u n s : String)
    (hu : dget r "UNIT" = some (.str u)) (hu2 : pyStrip u = u)
    (hn : dget r "NUMBER" = some (.str n)) (hn2 : pyStrip n = n)
    (hn3 : pyEndsWith n ".0" = false)
    (hs : dget r "STREET" = some (.str s)) (hs2 : pyStrip s = s) :
    rowCanonicalizeUnitAndNumber r = .ok r := by
  have e1 : ditem r "UNIT" = .ok (.str u) := by simp [ditem, hu]
  have e2 : cellOrEmptyStrip (.str u) = .ok u := by simp [cellOrEmptyStrip, hu2]
  have e3 : dset r "UNIT" (.str u) = r := dset_id r "UNIT" (.str u) hu
  have e4 : ditem r "NUMBER" = .ok (.str n) := by simp [ditem, hn]
  have e5 : cellOrEmptyStrip (.str n) = .ok n := by simp [cellOrEmptyStrip, hn2]
  have e6 : dset r "NUMBER" (.str n) = r := dset_id r "NUMBER" (.str n) hn
  have e7 : ditem r "STREET" = .ok (.str s) := by simp [ditem, hs]
  have e8 : cellOrEmptyStrip (.str s) = .ok s := by simp [cellOrEmptyStrip, hs2]
  have e9 : dset r "STREET" (.str s) = r := dset_id r "STREET" (.str s) hs
  simp [rowCanonicalizeUnitAndNumber, e1, e2, e3, e4, e5, e6, e7, e8, e9, hn3]

/-- `row_round_lat_lon` returns the row unchanged when GEOM is absent,
None, or a string not containing `POINT`. -/
theorem rowRoundLatLon_id_of_geom (hooks : Hooks) (r : Row)
    (h : dget r "GEOM" = none ∨ dget r "GEOM" = some .null ∨
      ∃ g, dget r "GEOM" = some (.str g) ∧ pyInStr "POINT" g = false) :
    rowRoundLatLon hooks r = .ok r := by
  rcases h with h | h | ⟨g, h, hp⟩
  · simp [rowRoundLatLon, h]
  · simp [rowRoundLatLon, h]
  · simp [rowRoundLatLon, h, hp]

/-- A successful `row_round_lat_lon` touches at most the GEOM key. -/
theorem rowRoundLatLon_preserves (hooks : Hooks) (r r' : Row) (k : String)
    (hk : k ≠ "GEOM") (h : rowRoundLatLon hooks r = .ok r') :
    dget r' k = dget r k := by
  simp only [rowRoundLatLon] at h
  repeat' split at h
  all_goals solve
    | simp at h
    | (rw [← Except.ok.inj h]; exact dget_dset_ne r k "GEOM" _ hk)
    | rw [← Except.ok.inj h]

/-- Every successful output of `row_canonicalize_unit_and_number` has
string UNIT/NUMBER/STREET values, with UNIT and STREET stripped. -/
theorem canonUnitNumber_shape (r rc : Row)
    (h : rowCanonicalizeUnitAndNumber r = .ok rc) :
    (∃ u, dget rc "UNIT" = some (.str u) ∧ pyStrip u = u) ∧
    (∃ n, dget rc "NUMBER" = some (.str n)) ∧
    (∃ s, dget rc "STREET" = some (.str s) ∧ pyStrip s = s) := by
  unfold rowCanonicalizeUnitAndNumber at h
  split at h
  · simp at h
  rename_i cu h1
  split at h
  · simp at h
  rename_i u h2
  split at h
  · simp at h
  rename_i cn h3
  split at h
  · simp at h
  rename_i n0 h4
  generalize (if pyEndsWith n0 ".0" then String.mk (n0.toList.take (n0.length - 2)) else n0) = N at h
  split at h
  · simp at h
  rename_i cs h5
  split at h
  · simp at h
  rename_i s h6
  injection h with h7
  subst h7
  exact ⟨⟨u, by
            rw [dget_dset_ne _ "UNIT" "STREET" _ (by decide),
              dget_dset_ne _ "UNIT" "NUMBER" _ (by decide)]
            exact dget_dset_self _ _ _,
          cellOrEmptyStrip_stripped cu u h2⟩,
         ⟨N, by
            rw [dget_dset_ne _ "NUMBER" "STREET" _ (by decide)]
            exact dget_dset_self _ _ _⟩,
         ⟨s, dget_dset_self _ _ _, cellOrEmptyStrip_stripped cs s h6⟩⟩

/-- C5 counterexample: canonicalization is NOT idempotent — on a row
with NUMBER `1.0.0` a first pass strips the trailing `.0` giving `1.0`,
and a second pass strips again giving `1`. -/
theorem C5_canonicalize_counterexample :
    rowCanonicalize trivialHooks
      [("GEOM", .null), ("NUMBER", .str "1.0.0"), ("STREET", .str "s"), ("UNIT", .str "")] =
      .ok [("GEOM", .null), ("NUMBER", .str "1.0"), ("STREET", .str "s"), ("UNIT", .str "")] ∧
    rowCanonicalize trivialHooks
      [("GEOM", .null), ("NUMBER", .str "1.0"), ("STREET", .str "s"), ("UNIT", .str "")] =
      .ok [("GEOM", .null), ("NUMBER", .str "1"), ("STREET", .str "s"), ("UNIT", .str "")] ∧
    ([("GEOM", Cell.null), ("NUMBER", Cell.str "1.0"), ("STREET", Cell.str "s"),
        ("UNIT", Cell.str "")] : Row) ≠
      [("GEOM", .null), ("NUMBER", .str "1"), ("STREET", .str "s"), ("UNIT", .str "")] :=
  ⟨by decide, by decide, by decide⟩

/-- C5 (amended): canonicalization is idempotent on every output row
whose canonicalized NUMBER is stripped and does not itself end in `.0`
(stripping `.0` can expose another `.0` or trailing whitespace, the only
obstructions), provided the geometry does not go through the external
OGR round-trip (GEOM absent, None, or not a `POINT`). -/
theorem C5_canonicalize_amended :
    ∀ (hooks : Hooks) (r r1 : Row) (n : String),
      rowCanonicalize hooks r = .ok r1 →
      dget r1 "NUMBER" = some (.str n) → pyStrip n = n →
      pyEndsWith n ".0" = false →
      (dget r1 "GEOM" = none ∨ dget r1 "GEOM" = some .null ∨
        ∃ g, dget r1 "GEOM" = some (.str g) ∧ pyInStr "POINT" g = false) →
      rowCanonicalize hooks r1 = .ok r1 := by
  intro hooks r r1 n h hn hn2 hn3 hG
  unfold rowCanonicalize at h
  split at h
  · simp at h
  rename_i rc hc
  obtain ⟨⟨u, hu, hu2⟩, ⟨n', hn'⟩, ⟨s, hs, hs2⟩⟩ := canonUnitNumber_shape r rc hc
  have pu : dget r1 "UNIT" = some (.str u) := by
    rw [rowRoundLatLon_preserves hooks rc r1 "UNIT" (by decide) h, hu]
  have pn : dget r1 "NUMBER" = some (.str n') := by
    rw [rowRoundLatLon_preserves hooks rc r1 "NUMBER" (by decide) h, hn']
  have ps : dget r1 "STREET" = some (.str s) := by
    rw [rowRoundLatLon_preserves hooks rc r1 "STREET" (by decide) h, hs]
  have hnn : n' = n := Cell.str.inj (Option.some.inj (pn.symm.trans hn))
  have hfix : rowCanonicalizeUnitAndNumber r1 = .ok r1 :=
    canonUnitNumber_fixpoint r1 u n s pu hu2 (hnn ▸ pn) hn2 hn3 ps hs2
  have hround : rowRoundLatLon hooks r1 = .ok r1 :=
    rowRoundLatLon_id_of_geom hooks r1 hG
  simp [rowCanonicalize, hfix, hround]

theorem C5_canonicalize_amended_witness :
    rowCanonicalize trivialHooks
      [("GEOM", .null), ("NUMBER", .str " 5.0 "), ("STREET", .str " x "), ("UNIT", .str " u ")] =
      .ok [("GEOM", .null), ("NUMBER", .str "5"), ("STREET", .str "x"), ("UNIT", .str "u")] ∧
    rowCanonicalize trivialHooks
      [("GEOM", .null), ("NUMBER", .str "5"), ("STREET", .str "x"), ("UNIT", .str "u")] =
      .ok [("GEOM", .null), ("NUMBER", .str "5"), ("STREET", .str "x"), ("UNIT", .str "u")] :=
  ⟨by decide,
   C5_canonicalize_amended trivialHooks
     [("GEOM", .null), ("NUMBER", .str " 5.0 "), ("STREET", .str " x "), ("UNIT", .str " u ")]
     [("GEOM", .null), ("NUMBER", .str "5"), ("STREET", .str "x"), ("UNIT", .str "u")] "5"
     (by decide) (by decide) (by decide) (by decide)
     (Or.inr (Or.inl (by decide)))⟩

/-! ## C8: coordinate rounding and exponent notation -/

/-- Searching for a single character finds nothing when the character
does not occur. -/
theorem listHasInfix_single_not (c : Char) :
    ∀ l : List Char, ¬ c ∈ l → listHasInfix [c] l = false := by
  intro l
  induction l with
  | nil => intro _; rfl
  | cons x rest ih =>
    intro h
    have h1 : ¬ c = x := fun hh => h (by rw [hh]; exact List.mem_cons_self x rest)
    have h2 : ¬ c ∈ rest := fun hh => h (List.mem_cons_of_mem x hh)
    simp [listHasInfix, List.isPrefixOf, ih h2, h1]

/-- Every character `digitsRev` emits is a decimal digit. -/
theorem digitsRev_digits (f : Nat) :
    ∀ n c, c ∈ digitsRev f n → ∃ d, d < 10 ∧ c = Char.ofNat (48 + d) := by
  induction f with
  | zero =>
    intro n c h
    simp only [digitsRev] at h
    exact absurd h (List.not_mem_nil c)
  | succ f ih =>
    intro n c h
    simp only [digitsRev] at h
    split at h
    · exact absurd h (List.not_mem_nil c)
    · rcases List.mem_cons.mp h with h | h
      · exact ⟨n % 10, Nat.mod_lt n (by norm_num), h⟩
      · exact ih (n / 10) c h

/-- The letter `e` never appears in a decimal digit string. -/
theorem natDigits_no_e (n : Nat) : ¬ 'e' ∈ natDigits n := by
  intro h
  unfold natDigits at h
  split at h
  · exact absurd h (by decide)
  · rw [List.mem_reverse] at h
    obtain ⟨d, hd, he⟩ := digitsRev_digits 40 n 'e' h
    have hx : ∀ d, d < 10 → ¬ Char.ofNat (48 + d) = 'e' := by decide
    exact hx d hd he.symm

/-- The letter `e` never appears among the 12 significant digits. -/
theorem g12Digits_no_e (m : Nat) (e : Int) : ¬ 'e' ∈ g12Digits m e := by
  obtain ⟨k, hk⟩ : ∃ k, g12Digits m e = natDigits k := ⟨_, rfl⟩
  rw [hk]
  exact natDigits_no_e k

/-- Members of `dropWhile` are members of the list. -/
theorem mem_dropWhile {p : Char → Bool} :
    ∀ {l : List Char} {c : Char}, c ∈ l.dropWhile p → c ∈ l := by
  intro l
  induction l with
  | nil => intro c h; exact h
  | cons x rest ih =>
    intro c h
    by_cases hx : p x
    · simp only [List.dropWhile, hx] at h
      exact List.mem_cons_of_mem x (ih h)
    · simp only [List.dropWhile, hx] at h
      exact h

/-- Members of `stripTrailZeros l` are members of `l`. -/
theorem stripTrailZeros_mem {c : Char} {l : List Char}
    (h : c ∈ stripTrailZeros l) : c ∈ l := by
  unfold stripTrailZeros at h
  rw [List.mem_reverse] at h
  exact List.mem_reverse.mp (mem_dropWhile h)

/-- String append acts as list append on the character data. -/
theorem strData_append (s t : String) : (s ++ t).data = s.data ++ t.data := by
  cases s; cases t; rfl

/-- When the `%g` exponent is in `[-4, 12)`, `%.12g` emits no `e`. -/
theorem format12g_no_exp (neg : Bool) (m : Nat) (e : Int)
    (h1 : -4 ≤ g12Exp m e) (h2 : g12Exp m e < 12) :
    pyInStr "e" (format12g (.num neg m e)) = false := by
  have hcond : ¬ (g12Exp m e < -4 ∨ 12 ≤ g12Exp m e) := by omega
  have hsign : ¬ 'e' ∈ (if neg then "-" else "" : String).data := by
    cases neg <;> decide
  show listHasInfix ['e'] (format12g (.num neg m e)).toList = false
  apply listHasInfix_single_not
  intro hmem
  simp only [format12g] at hmem
  rw [if_neg hcond] at hmem
  by_cases hE : (0 : Int) ≤ g12Exp m e
  · rw [if_pos hE] at hmem
    simp only [String.toList, strData_append, List.mem_append] at hmem
    rcases hmem with (hmem | hmem) | hmem
    · exact hsign hmem
    · exact g12Digits_no_e m e (List.take_subset _ _ hmem)
    · split at hmem
      · exact absurd hmem (by decide)
      · rw [strData_append] at hmem
        rcases List.mem_append.mp hmem with hmem | hmem
        · exact absurd hmem (by decide)
        · exact g12Digits_no_e m e (List.drop_subset _ _ (stripTrailZeros_mem hmem))
  · rw [if_neg hE] at hmem
    simp only [String.toList, strData_append, List.mem_append] at hmem
    rcases hmem with (hmem | hmem) | hmem
    · exact hsign hmem
    · exact absurd hmem (by decide)
    · rcases hmem with hmem | hmem
      · exact absurd (List.eq_of_mem_replicate hmem) (by decide)
      · exact g12Digits_no_e m e (stripTrailZeros_mem hmem)

/-- OGR-like hooks for the counterexample geometry. -/
def c8Hooks : Hooks :=
  { trivialHooks with
    ogrParsePoint := fun s =>
      if s = "POINT (0.00001 50)" then
        some (dblOfParsed (false, 1, -5), dblOfParsed (false, 50, 0))
      else none,
    ogrExportPoint := fun s => some s }

/-- C8 counterexample: rounding a perfectly valid small coordinate
emits exponent notation — `_round_wgs84_to_7("0.00001")` is `"1e-05"`,
and the geometry written back contains it. -/
theorem C8_rounding_counterexample :
    roundWgs84To7 "0.00001" = "1e-05" ∧
    pyInStr "e" (roundWgs84To7 "0.00001") = true ∧
    rowRoundLatLon c8Hooks [("GEOM", .str "POINT (0.00001 50)")] =
      .ok [("GEOM", .str "POINT (1e-05 50)")] :=
  ⟨by decide, by decide, by decide⟩

/-- C8 (amended): `%.12g` emits exponent notation exactly by the C `%g`
rule — never when the decimal exponent lies in `[-4, 12)`, but outside
that range (e.g. any magnitude below `1e-4`) it does; a coordinate
string `float()` cannot parse is returned unchanged, and a geometry OGR
cannot parse leaves the whole row unchanged. -/
theorem C8_rounding_amended :
    (∀ (neg : Bool) (m : Nat) (e : Int),
      -4 ≤ g12Exp m e → g12Exp m e < 12 →
      pyInStr "e" (format12g (.num neg m e)) = false) ∧
    (∀ n, pyParseFloat n = none → roundWgs84To7 n = n) ∧
    (∀ (hooks : Hooks) (row : Row) (g : String),
      dget row "GEOM" = some (.str g) → pyInStr "POINT" g = true →
      hooks.ogrParsePoint g = none → rowRoundLatLon hooks row = .ok row) := by
  refine ⟨fun neg m e h1 h2 => format12g_no_exp neg m e h1 h2,
          fun n h => ?_, fun hooks row g hg hp hn => ?_⟩
  · simp [roundWgs84To7, h]
  · simp [rowRoundLatLon, hg, hp, hn]

theorem C8_rounding_amended_witness :
    pyInStr "e" (format12g (.num false (2 ^ 52) (-52))) = false ∧
    roundWgs84To7 "abc" = "abc" ∧
    rowRoundLatLon trivialHooks [("GEOM", .str "POINT (1 2)")] =
      .ok [("GEOM", .str "POINT (1 2)")] :=
  ⟨C8_rounding_amended.1 false (2 ^ 52) (-52) (by decide) (by decide),
   C8_rounding_amended.2.1 "abc" (by decide),
   C8_rounding_amended.2.2 trivialHooks [("GEOM", .str "POINT (1 2)")] "POINT (1 2)"
     (by decide) (by decide) (by rfl)⟩

/-! ## C9: the acceptance-test runner -/

/-- A successful fixture run never returns the no-verdict `None`:
the loop ends in `(True, None)` or `(False, message)`. -/
theorem runAcceptanceLoop_verdict (hooks : Hooks) (uuids : Nat → String) (sc : SourceConfig) :
    ∀ (ts : List AcceptanceTest) (idx : Nat) (v : Option Bool × Option String),
      runAcceptanceLoop hooks uuids sc idx ts = .ok v → v.1 ≠ none := by
  intro ts
  induction ts with
  | nil =>
    intro idx v h
    simp only [runAcceptanceLoop] at h
    rw [← Except.ok.inj h]
    simp
  | cons t rest ih =>
    intro idx v h
    simp only [runAcceptanceLoop] at h
    split at h
    · simp at h
    · split at h
      · exact ih (idx + 1) v h
      · rw [← Except.ok.inj h]
        simp

/-- C9: `check_source_tests` returns the no-verdict `(None, None)`
exactly when tests are disabled or there are no fixtures; otherwise the
fixture loop (case-fold input, full row transform, restrict the smashed
output to the expected keys, compare as dicts) either passes every
fixture — `(True, None)` — or short-circuits at the first mismatch with
`(False, "For <description>, expected <json> but got <json>")`. -/
theorem C9_source_tests :
    (∀ (hooks : Hooks) (uuids : Nat → String) (sc : SourceConfig),
      (!testsEnabled (smashedDS sc.dataSource)
        || (testFixtures (smashedDS sc.dataSource)).isEmpty) = true →
      checkSourceTests hooks uuids sc = .ok (none, none)) ∧
    (∀ (hooks : Hooks) (uuids : Nat → String) (sc : SourceConfig)
       (v : Option Bool × Option String),
      (!testsEnabled (smashedDS sc.dataSource)
        || (testFixtures (smashedDS sc.dataSource)).isEmpty) = false →
      checkSourceTests hooks uuids sc = .ok v → v.1 ≠ none) ∧
    (∀ (hooks : Hooks) (uuids : Nat → String) (sc : SourceConfig) (idx : Nat),
      runAcceptanceLoop hooks uuids sc idx [] = .ok (some true, none)) ∧
    (∀ (hooks : Hooks) (uuids : Nat → String) (sc : SourceConfig) (idx : Nat)
       (t : AcceptanceTest) (rest : List AcceptanceTest) (outRow : Row),
      rowTransformAndConvert hooks sc (uuids idx) (rowSmashCase t.inputs) = .ok outRow →
      rowEquiv ((rowSmashCase outRow).filter (fun kv => dmem t.expected kv.1))
        (rowSmashCase t.expected) = true →
      runAcceptanceLoop hooks uuids sc idx (t :: rest) =
        runAcceptanceLoop hooks uuids sc (idx + 1) rest) ∧
    (∀ (hooks : Hooks) (uuids : Nat → String) (sc : SourceConfig) (idx : Nat)
       (t : AcceptanceTest) (rest : List AcceptanceTest) (outRow : Row),
      rowTransformAndConvert hooks sc (uuids idx) (rowSmashCase t.inputs) = .ok outRow →
      rowEquiv ((rowSmashCase outRow).filter (fun kv => dmem t.expected kv.1))
        (rowSmashCase t.expected) = false →
      runAcceptanceLoop hooks uuids sc idx (t :: rest) =
        .ok (some false, some (mkTestFailMsg
          (t.description.getD ("test " ++ String.mk (natDigits idx)))
          (jsonDumpObj false (rowSmashCase t.expected))
          (jsonDumpObj false ((rowSmashCase outRow).filter
            (fun kv => dmem t.expected kv.1)))))) := by
  refine ⟨fun hooks uuids sc h => ?_, fun hooks uuids sc v h h2 => ?_,
          fun hooks uuids sc idx => rfl,
          fun hooks uuids sc idx t rest outRow htr heq => ?_,
          fun hooks uuids sc idx t rest outRow htr heq => ?_⟩
  · simp [checkSourceTests, h]
  · simp [checkSourceTests, h] at h2
    exact runAcceptanceLoop_verdict hooks uuids _ _ 0 v h2
  · simp [runAcceptanceLoop, htr, heq]
  · simp [runAcceptanceLoop, htr, heq]

/-- A parcels source with one passing acceptance fixture. -/
def c9SC : SourceConfig :=
  { layer := .parcels,
    dataSource :=
      { conform := some [("pid", .s "p")], protocol := some "http",
        fingerprint := some "f",
        test := some
          { enabled := some true,
            acceptanceTests := some
              [{ inputs := [("p", .str "1")],
                 expected := [("pid", .str "1")],
                 description := none }] } } }

/-- The same source without a test block. -/
def c9SCnoTests : SourceConfig :=
  { layer := .parcels,
    dataSource := { conform := some [("pid", .s "p")], protocol := some "http",
                    fingerprint := some "f", test := none } }

/-- A fixture the transform satisfies. -/
def c9Pass : AcceptanceTest :=
  { inputs := [("p", .str "1")], expected := [("pid", .str "1")], description := none }

/-- A fixture the transform fails. -/
def c9Fail : AcceptanceTest :=
  { inputs := [("p", .str "1")], expected := [("pid", .str "2")], description := none }

theorem C9_source_tests_witness :
    checkSourceTests trivialHooks (fun _ => "u") c9SCnoTests = .ok (none, none) ∧
    ((some true, none) : Option Bool × Option String).1 ≠ none ∧
    runAcceptanceLoop trivialHooks (fun _ => "u") c9SC 0 [] = .ok (some true, none) ∧
    runAcceptanceLoop trivialHooks (fun _ => "u") c9SC 0 [c9Pass] =
      runAcceptanceLoop trivialHooks (fun _ => "u") c9SC 1 [] ∧
    runAcceptanceLoop trivialHooks (fun _ => "u") c9SC 0 [c9Fail] =
      .ok (some false,
        some "For test 0, expected \x7b\"pid\": \"2\"\x7d but got \x7b\"pid\": \"1\"\x7d") :=
  ⟨C9_source_tests.1 trivialHooks (fun _ => "u") c9SCnoTests (by decide),
   C9_source_tests.2.1 trivialHooks (fun _ => "u") c9SC (some true, none)
     (by decide) (by decide),
   C9_source_tests.2.2.1 trivialHooks (fun _ => "u") c9SC 0,
   C9_source_tests.2.2.2.1 trivialHooks (fun _ => "u") c9SC 0 c9Pass []
     [("GEOM", .null), ("PID", .str "1"), ("HASH", .str "2d8b74389c5c460d")]
     (by decide) (by decide),
   C9_source_tests.2.2.2.2 trivialHooks (fun _ => "u") c9SC 0 c9Fail []
     [("GEOM", .null), ("PID", .str "1"), ("HASH", .str "2d8b74389c5c460d")]
     (by decide) (by decide)⟩

/-! ## C10: missing coordinates and nan geometries degrade to None -/

/-- Deleting a list of keys leaves every other key untouched. -/
theorem dget_foldl_ddel (names : List String) (r : Row) (k : String)
    (h : ¬ k ∈ names) : dget (names.foldl ddel r) k = dget r k := by
  induction names generalizing r with
  | nil => rfl
  | cons n rest ih =>
    have h1 : k ≠ n := fun hh => h (by rw [hh]; exact List.mem_cons_self n rest)
    have h2 : ¬ k ∈ rest := fun hh => h (List.mem_cons_of_mem n hh)
    rw [List.foldl_cons, ih (ddel r n) h2, dget_ddel_ne r k n h1]

/-- C10: `row_extract_and_reproject` degrades gracefully — a source
geometry reading exactly `POINT (nan nan)` yields the output row with
the unified geometry field set to `None` (all attributes except the
geometry columns preserved); likewise, when the conform names lat/lon
columns and the lon or lat cell is the empty string or a non-string
value, the output row carries geometry `None` with every field other
than the removed coordinate columns preserved — no error is raised. -/
theorem C10_geometry_extraction :
    (∀ (sc : SourceConfig) (conf : Conform) (p : String) (row : Row),
      sc.dataSource.conform = some conf →
      sc.dataSource.protocol = some p →
      dget row GEOM_FIELDNAME = some (.str "POINT (nan nan)") →
      ∃ out, rowExtractAndReproject sc row = .ok out ∧
        dget out GEOM_FIELDNAME = some .null ∧
        ∀ k, k ≠ GEOM_FIELDNAME → k ≠ "OA:geom" → dget out k = dget row k) ∧
    (∀ (sc : SourceConfig) (conf : Conform) (p : String) (row : Row)
       (latName lonName : String) (cx cy : Cell),
      sc.dataSource.conform = some conf →
      sc.dataSource.protocol = some p →
      (dget row GEOM_FIELDNAME = none ∨ dget row GEOM_FIELDNAME = some .null) →
      dget row "OA:geom" = none →
      cget conf "lat" = some (.s latName) →
      cget conf "lon" = some (.s lonName) →
      dget row lonName = some cx →
      dget row latName = some cy →
      (cx = .str "" ∨ cy = .str "" ∨ (∀ s, cx ≠ .str s) ∨ (∀ s, cy ≠ .str s)) →
      ∃ out, rowExtractAndReproject sc row = .ok out ∧
        dget out GEOM_FIELDNAME = some .null ∧
        ∀ k, k ≠ GEOM_FIELDNAME →
          ¬ k ∈ [lonName, pyUpper lonName, latName, pyUpper latName] →
          dget out k = dget row k) := by
  constructor
  · intro sc conf p row hconf hprot hg
    rcases hglo : dget row "OA:geom" with _ | c2
    · refine ⟨dset row GEOM_FIELDNAME .null, ?_, dget_dset_self _ _ _, ?_⟩
      · simp [rowExtractAndReproject, hconf, hprot, hg, hglo]
      · intro k hk _
        exact dget_dset_ne row k GEOM_FIELDNAME .null hk
    · by_cases hnull : c2 = .null
      · subst hnull
        refine ⟨dset row GEOM_FIELDNAME .null, ?_, dget_dset_self _ _ _, ?_⟩
        · simp [rowExtractAndReproject, hconf, hprot, hg, hglo]
        · intro k hk _
          exact dget_dset_ne row k GEOM_FIELDNAME .null hk
      · refine ⟨dset (ddel row "OA:geom") GEOM_FIELDNAME .null, ?_,
          dget_dset_self _ _ _, ?_⟩
        · simp [rowExtractAndReproject, hconf, hprot, hg, hglo, hnull]
        · intro k hk hk2
          rw [dget_dset_ne _ k GEOM_FIELDNAME .null hk, dget_ddel_ne row k "OA:geom" hk2]
  · intro sc conf p row latName lonName cx cy hconf hprot hgup hglo hlat hlon hx hy hblank
    have hb : ∀ (a b : String), cx = .str a → cy = .str b → a = "" ∨ b = "" := by
      intro a b ha hb2
      rcases hblank with h | h | h | h
      · rw [ha] at h; exact Or.inl (Cell.str.inj h)
      · rw [hb2] at h; exact Or.inr (Cell.str.inj h)
      · rw [ha] at h; exact absurd rfl (h a)
      · rw [hb2] at h; exact absurd rfl (h b)
    have hrep : pyReplaceChar ',' '.' "" = "" := by decide
    have hres : rowExtractAndReproject sc row =
        .ok (dset ([lonName, pyUpper lonName, latName, pyUpper latName].foldl ddel row)
          GEOM_FIELDNAME .null) := by
      rcases hgup with hgup | hgup
      all_goals
        cases cx with
        | str a =>
          cases cy with
          | str b =>
            rcases hb a b rfl rfl with hb2 | hb2 <;> subst hb2 <;>
              simp [rowExtractAndReproject, hconf, hprot, hgup, hglo, hlat, hlon,
                hx, hy, hrep]
          | null =>
            simp [rowExtractAndReproject, hconf, hprot, hgup, hglo, hlat, hlon, hx, hy]
          | int n =>
            simp [rowExtractAndReproject, hconf, hprot, hgup, hglo, hlat, hlon, hx, hy]
        | null =>
          cases cy <;>
            simp [rowExtractAndReproject, hconf, hprot, hgup, hglo, hlat, hlon, hx, hy]
        | int n =>
          cases cy <;>
            simp [rowExtractAndReproject, hconf, hprot, hgup, hglo, hlat, hlon, hx, hy]
    refine ⟨_, hres, dget_dset_self _ _ _, ?_⟩
    intro k hk hk2
    rw [dget_dset_ne _ k GEOM_FIELDNAME .null hk, dget_foldl_ddel _ row k hk2]

/-- A parcels source whose conform is empty. -/
def c10nanSC : SourceConfig :=
  { layer := .parcels,
    dataSource := { conform := some [], protocol := some "http",
                    fingerprint := some "f", test := none } }

/-- A source row with the literal `POINT (nan nan)` geometry. -/
def c10nanRow : Row := [("OA:GEOM", .str "POINT (nan nan)"), ("a", .str "v")]

/-- A parcels source naming lat/lon columns. -/
def c10llSC : SourceConfig :=
  { layer := .parcels,
    dataSource := { conform := some [("lat", .s "y"), ("lon", .s "x")],
                    protocol := some "http", fingerprint := some "f", test := none } }

/-- A source row whose lon column is blank. -/
def c10llRow : Row := [("x", .str ""), ("y", .str "2"), ("a", .str "v")]

theorem C10_geometry_extraction_witness :
    (∃ out, rowExtractAndReproject c10nanSC c10nanRow = .ok out ∧
      dget out GEOM_FIELDNAME = some .null ∧
      ∀ k, k ≠ GEOM_FIELDNAME → k ≠ "OA:geom" → dget out k = dget c10nanRow k) ∧
    (∃ out, rowExtractAndReproject c10llSC c10llRow = .ok out ∧
      dget out GEOM_FIELDNAME = some .null ∧
      ∀ k, k ≠ GEOM_FIELDNAME → ¬ k ∈ ["x", pyUpper "x", "y", pyUpper "y"] →
        dget out k = dget c10llRow k) :=
  ⟨C10_geometry_extraction.1 c10nanSC [] "http" c10nanRow rfl rfl (by decide),
   C10_geometry_extraction.2 c10llSC [("lat", .s "y"), ("lon", .s "x")] "http" c10llRow
     "y" "x" (.str "") (.str "2") rfl rfl (Or.inl (by decide)) (by decide)
     rfl rfl (by decide) (by decide) (Or.inl rfl)⟩
